import Mathlib

/-!
Shallow embedding of the multi-provider photo-search core of
`src/main.ts` (an Obsidian photo-search plugin), together with proofs of
the specification claims about it.

The embedded pieces are, in source order:
* the plugin settings and the common `Photo` record;
* `detectPhotoURL` (URL Detector), including faithful executable matchers
  for its three JavaScript regular expressions;
* `encodeURIComponent` and the three search-endpoint URL builders;
* the three provider adapters (`searchPexels`, `searchUnsplash`,
  `searchPixabay`, and the three `fetch*Photo` functions), with the
  provider HTTP responses modelled as an explicit environment and every
  issued request recorded in a log;
* the aggregator `searchPhotos`;
* the save step `savePhoto` (folder creation, collision-free filename
  computation, binary download, write, metadata insertion), with the
  vault, the editor and the notices modelled as explicit state.
-/

namespace PhotoSearch

/-- Plugin settings: `interface PhotoSearchSettings` in `src/main.ts`. -/
structure PhotoSearchSettings where
  pexelsApiKey : String
  unsplashApiKey : String
  pixabayApiKey : String
  saveLocation : String
  imageSize : String
  saveMetadata : Bool
  includeAiImages : Bool
  defaultProvider : String
deriving Repr, DecidableEq

/-- Common photo record: `interface Photo` in `src/main.ts`.  `description`
and `isAiGenerated` are optional fields (`Option` models
`undefined`). -/
structure Photo where
  id : String
  url : String
  previewUrl : String
  downloadUrl : String
  photographer : String
  source : String
  tags : List String
  description : Option String
  width : Int
  height : Int
  isAiGenerated : Option Bool
deriving Repr, DecidableEq

/-! ## Character classes used by the three URL regular expressions -/

/-- The regex class `\d`. -/
def isAsciiDigit (c : Char) : Bool := '0' ≤ c && c ≤ '9'

/-- The regex class `[a-zA-Z0-9_-]` (the Unsplash capture class). -/
def isSlugChar (c : Char) : Bool :=
  ('a' ≤ c && c ≤ 'z') || ('A' ≤ c && c ≤ 'Z') || isAsciiDigit c || c = '_' || c = '-'

/-- The regex class `[a-z]` (the Pixabay language-code class). -/
def isLowerAlpha (c : Char) : Bool := 'a' ≤ c && c ≤ 'z'

/-- Whitespace removed by JavaScript `String.prototype.trim` (the common
ASCII cases). -/
def isJsWhitespaceChar (c : Char) : Bool :=
  c = ' ' || c = '\t' || c = '\n' || c = '\r' || c = '\x0b' || c = '\x0c'

/-- JavaScript `s.trim()` on a character list. -/
def jsTrim (l : List Char) : List Char :=
  ((l.dropWhile isJsWhitespaceChar).reverse.dropWhile isJsWhitespaceChar).reverse

/-- JavaScript `s.split(sep)[0]`: the part of `l` before the first
occurrence of `sep` (all of `l` when `sep` does not occur). -/
def jsSplitHead (sep : Char) (l : List Char) : List Char :=
  l.takeWhile (fun c => c != sep)

/-! ## Executable matchers for the three regular expressions of
`detectPhotoURL` (src/main.ts lines 487-520)

JavaScript `String.prototype.match` scans for the leftmost position at
which the (here end-anchored) pattern matches, with greedy backtracking
inside the pattern.  The matchers below implement exactly that search and
return the single capture group. -/

/-- Strips a literal character sequence from the front of the input
(one regex literal), or fails. -/
def dropLit : List Char → List Char → Option (List Char)
  | [], l => some l
  | _ :: _, [] => none
  | p :: ps, c :: cs => if p = c then dropLit ps cs else none

/-- Matches an entire remaining input against `(X+)\/?$` for a character
class `X` that excludes `/`: a nonempty all-`X` core followed by an
optional final slash.  Returns the capture (the core). -/
def classEnd (cls : Char → Bool) (l : List Char) : Option (List Char) :=
  let core := if l.getLast? = some '/' then l.dropLast else l
  if !core.isEmpty && core.all cls then some core else none

/-- Matches `(\d+)\/?$` (shared tail of the Pexels and Pixabay regexes). -/
def digitsEnd (l : List Char) : Option (List Char) := classEnd isAsciiDigit l

/-- Matches `([a-zA-Z0-9_-]+)\/?$` (capture tail of the Unsplash regex). -/
def slugEnd (l : List Char) : Option (List Char) := classEnd isSlugChar l

/-- Backtracking core of `[^\/]+-` followed by continuation `k`, entered
with at least one character already consumed by the `+`.  At each
character the greedy `+` first tries to extend; only if no longer match
exists does it close, requiring the current character to be the literal
`-` and handing the rest to `k`. -/
def dashSeg (k : List Char → Option (List Char)) : List Char → Option (List Char)
  | [] => none
  | c :: cs =>
    if c = '/' then none
    else
      match dashSeg k cs with
      | some d => some d
      | none => if c = '-' then k cs else none

/-- Matches `[^\/]+-` followed by continuation `k` (greedy, with
backtracking), as in the tails of the Pexels, Unsplash and Pixabay
regexes. -/
def dashPlus (k : List Char → Option (List Char)) : List Char → Option (List Char)
  | [] => none
  | c :: cs => if c = '/' then none else dashSeg k cs

/-- The literal `pexels\.com\/photo\/` of the Pexels regex. -/
def pexelsLit : List Char := "pexels.com/photo/".toList

/-- One attempt of the Pexels regex
`pexels\.com\/photo\/[^\/]+-(\d+)\/?$` at the current position. -/
def pexelsAt (l : List Char) : Option (List Char) :=
  match dropLit pexelsLit l with
  | some r => dashPlus digitsEnd r
  | none => none

/-- Leftmost-position search for the Pexels regex (JS `match`). -/
def pexelsFind : List Char → Option (List Char)
  | [] => none
  | c :: cs =>
    match pexelsAt (c :: cs) with
    | some d => some d
    | none => pexelsFind cs

/-- The literal `unsplash\.com\/` of the Unsplash regex. -/
def unsplashLit : List Char := "unsplash.com/".toList

/-- The literal `photos\/` shared by the Unsplash and Pixabay regexes. -/
def photosLit : List Char := "photos/".toList

/-- Matches `(?:[^\/]+-)?([a-zA-Z0-9_-]+)\/?$` (the tail of the
`photos/` alternative of the Unsplash regex).  The greedy optional group
is tried first; if no match uses it, it is dropped. -/
def unsplashPhotosTail (l : List Char) : Option (List Char) :=
  match dashPlus slugEnd l with
  | some d => some d
  | none => slugEnd l

/-- Scans `[^\/]+\/` for the first slash and hands the rest to the
capture tail (the `@user/` alternative of the Unsplash regex after its
first character). -/
def userSlash : List Char → Option (List Char)
  | [] => none
  | c :: cs => if c = '/' then slugEnd cs else userSlash cs

/-- Matches `[^\/]+\/([a-zA-Z0-9_-]+)\/?$` (the `@user/` alternative of
the Unsplash regex after the `@`). -/
def unsplashUserTail : List Char → Option (List Char)
  | [] => none
  | c :: cs => if c = '/' then none else userSlash cs

/-- One attempt of the Unsplash regex
`unsplash\.com\/(?:photos\/(?:[^\/]+-)?|@[^\/]+\/)([a-zA-Z0-9_-]+)\/?$`
at the current position. -/
def unsplashAt (l : List Char) : Option (List Char) :=
  match dropLit unsplashLit l with
  | some r =>
    match dropLit photosLit r with
    | some r2 => unsplashPhotosTail r2
    | none =>
      match r with
      | '@' :: r2 => unsplashUserTail r2
      | _ => none
  | none => none

/-- Leftmost-position search for the Unsplash regex (JS `match`). -/
def unsplashFind : List Char → Option (List Char)
  | [] => none
  | c :: cs =>
    match unsplashAt (c :: cs) with
    | some d => some d
    | none => unsplashFind cs

/-- The literal `pixabay\.com\/` of the Pixabay regex. -/
def pixabayLit : List Char := "pixabay.com/".toList

/-- Attempts the optional language segment `[a-z]{2}\/` of the Pixabay
regex followed by `photos\/[^\/]+-(\d+)\/?$`. -/
def pixabayLangTail (l : List Char) : Option (List Char) :=
  match l with
  | a :: b :: '/' :: r =>
    if isLowerAlpha a && isLowerAlpha b then
      match dropLit photosLit r with
      | some r2 => dashPlus digitsEnd r2
      | none => none
    else none
  | _ => none

/-- One attempt of the Pixabay regex
`pixabay\.com\/(?:[a-z]{2}\/)?photos\/[^\/]+-(\d+)\/?$` at the current
position: the greedy optional language group is tried first. -/
def pixabayAt (l : List Char) : Option (List Char) :=
  match dropLit pixabayLit l with
  | some r =>
    match pixabayLangTail r with
    | some d => some d
    | none =>
      match dropLit photosLit r with
      | some r2 => dashPlus digitsEnd r2
      | none => none
  | none => none

/-- Leftmost-position search for the Pixabay regex (JS `match`). -/
def pixabayFind : List Char → Option (List Char)
  | [] => none
  | c :: cs =>
    match pixabayAt (c :: cs) with
    | some d => some d
    | none => pixabayFind cs

/-- The cleaning step of `detectPhotoURL`:
`input.trim().split('?')[0].split('#')[0]`. -/
def cleanInput (input : String) : List Char :=
  jsSplitHead '#' (jsSplitHead '?' (jsTrim input.toList))

/-- URL Detector: `detectPhotoURL` in `src/main.ts` (lines 487-520).
Trims, strips query string and fragment, then tries the Pexels, Unsplash
and Pixabay regexes in that order, returning provider and captured id of
the first match, or `none`. -/
def detectPhotoURL (input : String) : Option (String × String) :=
  let cleanedInput := cleanInput input
  match pexelsFind cleanedInput with
  | some d => some ("pexels", String.mk d)
  | none =>
    match unsplashFind cleanedInput with
    | some d => some ("unsplash", String.mk d)
    | none =>
      match pixabayFind cleanedInput with
      | some d => some ("pixabay", String.mk d)
      | none => none

/-! ## encodeURIComponent and the provider endpoint URLs -/

/-- Hexadecimal digit characters (uppercase, as produced by JavaScript
percent-encoding). -/
def hexDigitChar (n : Nat) : Char :=
  match n with
  | 0 => '0' | 1 => '1' | 2 => '2' | 3 => '3' | 4 => '4' | 5 => '5' | 6 => '6' | 7 => '7'
  | 8 => '8' | 9 => '9' | 10 => 'A' | 11 => 'B' | 12 => 'C' | 13 => 'D' | 14 => 'E' | 15 => 'F'
  | _ => '0'

/-- Percent-encoding of one byte. -/
def percentByte (b : Nat) : List Char :=
  ['%', hexDigitChar (b / 16 % 16), hexDigitChar (b % 16)]

/-- UTF-8 byte sequence of a Unicode code point. -/
def utf8Bytes (n : Nat) : List Nat :=
  if n < 128 then [n]
  else if n < 2048 then [192 + n / 64, 128 + n % 64]
  else if n < 65536 then [224 + n / 4096, 128 + n / 64 % 64, 128 + n % 64]
  else [240 + n / 262144, 128 + n / 4096 % 64, 128 + n / 64 % 64, 128 + n % 64]

/-- The characters `encodeURIComponent` leaves unescaped:
`A-Z a-z 0-9 - _ . ! ~ * ' ( )`. -/
def isUriUnreserved (c : Char) : Bool :=
  ('A' ≤ c && c ≤ 'Z') || ('a' ≤ c && c ≤ 'z') || isAsciiDigit c ||
  c = '-' || c = '_' || c = '.' || c = '!' || c = '~' || c = '*' || c = '\'' || c = '(' || c = ')'

/-- Encoding of one character by `encodeURIComponent`. -/
def encodeChar (c : Char) : List Char :=
  if isUriUnreserved c then [c]
  else ((utf8Bytes c.toNat).map percentByte).flatten

/-- JavaScript `encodeURIComponent`. -/
def encodeURIComponent (s : String) : String :=
  String.mk ((s.toList.map encodeChar).flatten)

/-- The search URL built by `searchPexels` (src/main.ts line 672). -/
def pexelsSearchUrl (query : String) : String :=
  "https://api.pexels.com/v1/search?query=" ++ encodeURIComponent query ++ "&per_page=20"

/-- The search URL built by `searchUnsplash` (src/main.ts line 697). -/
def unsplashSearchUrl (settings : PhotoSearchSettings) (query : String) : String :=
  "https://api.unsplash.com/search/photos?query=" ++ encodeURIComponent query ++ "&per_page=20"
    ++ (if !settings.includeAiImages then "&content_filter=high" else "")

/-- The search URL built by `searchPixabay` (src/main.ts line 720). -/
def pixabaySearchUrl (settings : PhotoSearchSettings) (query : String) : String :=
  "https://pixabay.com/api/?key=" ++ settings.pixabayApiKey ++ "&q=" ++ encodeURIComponent query
    ++ "&image_type=photo&per_page=20" ++ (if !settings.includeAiImages then "&ai_art=false" else "")

/-! ## Provider JSON response shapes and the Photo mapping of each adapter -/

/-- JavaScript `a || b` for a possibly-undefined string (`undefined` and
`""` are falsy). -/
def jsOrStr (a : Option String) (b : String) : String :=
  match a with
  | some s => if s = "" then b else s
  | none => b

/-- JavaScript `a || b` for two possibly-undefined strings. -/
def jsOrOpt (a b : Option String) : Option String :=
  match a with
  | some s => if s = "" then b else some s
  | none => b

/-- JavaScript `x || false` / `!x` for a possibly-undefined boolean. -/
def orFalse : Option Bool → Bool
  | none => false
  | some b => b

/-- The `src` object of a Pexels photo JSON. -/
structure PexelsSrc where
  original : String
  large2x : String
  large : String
  medium : String
  small : String
  portrait : String
  landscape : String
  tiny : String
deriving Repr, DecidableEq

/-- JavaScript dynamic field access `photo.src[size]`. -/
def PexelsSrc.lookupSize (src : PexelsSrc) (size : String) : Option String :=
  match size with
  | "original" => some src.original
  | "large2x" => some src.large2x
  | "large" => some src.large
  | "medium" => some src.medium
  | "small" => some src.small
  | "portrait" => some src.portrait
  | "landscape" => some src.landscape
  | "tiny" => some src.tiny
  | _ => none

/-- One photo of a Pexels API response. -/
structure PexelsRawPhoto where
  id : Nat
  url : String
  src : PexelsSrc
  photographer : String
  alt : Option String
  width : Int
  height : Int
  ai_generated : Option Bool
deriving Repr, DecidableEq

/-- The Photo construction shared by `searchPexels` (lines 680-692) and
`fetchPexelsPhoto` (lines 552-566) — the two object literals in the
source are identical. -/
def mapPexelsPhoto (settings : PhotoSearchSettings) (photo : PexelsRawPhoto) : Photo :=
  { id := "pexels-" ++ toString photo.id
    url := photo.url
    previewUrl := photo.src.medium
    downloadUrl := if settings.imageSize = "original" then photo.src.original
      else jsOrStr (photo.src.lookupSize settings.imageSize) photo.src.medium
    photographer := photo.photographer
    source := "Pexels"
    tags := match photo.alt with
      | some a => if a = "" then [] else a.splitOn " "
      | none => []
    description := photo.alt
    width := photo.width
    height := photo.height
    isAiGenerated := some (orFalse photo.ai_generated) }

/-- The `urls` object of an Unsplash photo JSON. -/
structure UnsplashUrls where
  raw : String
  full : String
  regular : String
  small : String
  thumb : String
deriving Repr, DecidableEq

/-- JavaScript dynamic field access `photo.urls[size]` (the plugin sizes
`medium` and `large` are not Unsplash keys and yield `undefined`). -/
def UnsplashUrls.lookupSize (urls : UnsplashUrls) (size : String) : Option String :=
  match size with
  | "raw" => some urls.raw
  | "full" => some urls.full
  | "regular" => some urls.regular
  | "small" => some urls.small
  | "thumb" => some urls.thumb
  | _ => none

/-- One tag object of an Unsplash photo JSON. -/
structure UnsplashTag where
  title : String
deriving Repr, DecidableEq

/-- One photo of an Unsplash API response. -/
structure UnsplashRawPhoto where
  id : String
  linksHtml : String
  urls : UnsplashUrls
  userName : String
  tags : Option (List UnsplashTag)
  description : Option String
  alt_description : Option String
  width : Int
  height : Int
deriving Repr, DecidableEq

/-- The Photo construction shared by `searchUnsplash` (lines 703-715) and
`fetchUnsplashPhoto` (lines 581-593).  In JavaScript an array (even an
empty one) is truthy, so the `photo.tags ?` guard only tests presence. -/
def mapUnsplashPhoto (settings : PhotoSearchSettings) (photo : UnsplashRawPhoto) : Photo :=
  { id := "unsplash-" ++ photo.id
    url := photo.linksHtml
    previewUrl := photo.urls.small
    downloadUrl := if settings.imageSize = "original" then photo.urls.raw
      else jsOrStr (photo.urls.lookupSize settings.imageSize) photo.urls.regular
    photographer := photo.userName
    source := "Unsplash"
    tags := match photo.tags with
      | some ts => ts.map (fun t => t.title)
      | none => []
    description := jsOrOpt photo.description photo.alt_description
    width := photo.width
    height := photo.height
    isAiGenerated := none }

/-- One photo (hit) of a Pixabay API response. -/
structure PixabayRawPhoto where
  id : Nat
  pageURL : String
  previewURL : String
  largeImageURL : String
  webformatURL : String
  user : String
  tags : String
  imageWidth : Int
  imageHeight : Int
deriving Repr, DecidableEq

/-- The Photo construction shared by `searchPixabay` (lines 723-735) and
`fetchPixabayPhoto` (lines 611-623). -/
def mapPixabayPhoto (settings : PhotoSearchSettings) (photo : PixabayRawPhoto) : Photo :=
  { id := "pixabay-" ++ toString photo.id
    url := photo.pageURL
    previewUrl := photo.previewURL
    downloadUrl := if settings.imageSize = "original" then photo.largeImageURL
      else photo.webformatURL
    photographer := photo.user
    source := "Pixabay"
    tags := photo.tags.splitOn ", "
    description := some photo.tags
    width := photo.imageWidth
    height := photo.imageHeight
    isAiGenerated := none }

/-! ## The HTTP layer, the adapters and the aggregator -/

/-- One outbound HTTP request, tagged by endpoint kind and provider. -/
inductive Request where
  | searchReq (provider : String) (url : String)
  | fetchReq (provider : String) (url : String)
deriving Repr, DecidableEq

/-- The provider HTTP layer, modelled as an oracle: for each endpoint the
parsed JSON of a successful `requestUrl` call keyed by query (resp. id),
or `Except.error` when the call throws (non-2xx HTTP status or malformed
JSON). -/
structure Net where
  pexelsSearchResp : String → Except String (List PexelsRawPhoto)
  unsplashSearchResp : String → Except String (List UnsplashRawPhoto)
  pixabaySearchResp : String → Except String (List PixabayRawPhoto)
  pexelsPhotoResp : String → Except String PexelsRawPhoto
  unsplashPhotoResp : String → Except String UnsplashRawPhoto
  pixabayPhotoResp : String → Except String (List PixabayRawPhoto)

/-- Adapter `searchPexels` (src/main.ts lines 670-693): one request to the Pexels
search endpoint; on success the response photos pass the AI filter
`includeAiImages || !photo.ai_generated` and are mapped to Photos. -/
def searchPexels (settings : PhotoSearchSettings) (net : Net) (query : String) :
    List Request × Except String (List Photo) :=
  ([Request.searchReq "pexels" (pexelsSearchUrl query)],
    (net.pexelsSearchResp query).map fun photos =>
      (photos.filter fun photo => settings.includeAiImages || !(orFalse photo.ai_generated)).map
        (mapPexelsPhoto settings))

/-- Adapter `searchUnsplash` (src/main.ts lines 695-716): one request to the
Unsplash search endpoint; on success the response photos are mapped
(no client-side AI filter — filtering happens via the URL parameter). -/
def searchUnsplash (settings : PhotoSearchSettings) (net : Net) (query : String) :
    List Request × Except String (List Photo) :=
  ([Request.searchReq "unsplash" (unsplashSearchUrl settings query)],
    (net.unsplashSearchResp query).map fun photos => photos.map (mapUnsplashPhoto settings))

/-- Adapter `searchPixabay` (src/main.ts lines 718-736): one request to the
Pixabay search endpoint; on success the response hits are mapped
(no client-side AI filter — filtering happens via the URL parameter). -/
def searchPixabay (settings : PhotoSearchSettings) (net : Net) (query : String) :
    List Request × Except String (List Photo) :=
  ([Request.searchReq "pixabay" (pixabaySearchUrl settings query)],
    (net.pixabaySearchResp query).map fun photos => photos.map (mapPixabayPhoto settings))

/-- Adapter `fetchPexelsPhoto` (src/main.ts lines 540-566): throws when no API
key is configured (before any request), otherwise requests the
single-photo endpoint and maps the response. -/
def fetchPexelsPhoto (settings : PhotoSearchSettings) (net : Net) (id : String) :
    List Request × Except String (Option Photo) :=
  if settings.pexelsApiKey = "" then ([], Except.error "Pexels API key not configured")
  else ([Request.fetchReq "pexels" ("https://api.pexels.com/v1/photos/" ++ id)],
    (net.pexelsPhotoResp id).map fun photo => some (mapPexelsPhoto settings photo))

/-- Adapter `fetchUnsplashPhoto` (src/main.ts lines 568-594). -/
def fetchUnsplashPhoto (settings : PhotoSearchSettings) (net : Net) (id : String) :
    List Request × Except String (Option Photo) :=
  if settings.unsplashApiKey = "" then ([], Except.error "Unsplash API key not configured")
  else ([Request.fetchReq "unsplash" ("https://api.unsplash.com/photos/" ++ id)],
    (net.unsplashPhotoResp id).map fun photo => some (mapUnsplashPhoto settings photo))

/-- Adapter `fetchPixabayPhoto` (src/main.ts lines 596-624): an empty `hits`
array yields `null` (photo not found). -/
def fetchPixabayPhoto (settings : PhotoSearchSettings) (net : Net) (id : String) :
    List Request × Except String (Option Photo) :=
  if settings.pixabayApiKey = "" then ([], Except.error "Pixabay API key not configured")
  else ([Request.fetchReq "pixabay"
      ("https://pixabay.com/api/?key=" ++ settings.pixabayApiKey ++ "&id=" ++ id)],
    (net.pixabayPhotoResp id).map fun photos =>
      match photos with
      | [] => none
      | photo :: _ => some (mapPixabayPhoto settings photo))

/-- Dispatcher `fetchPhotoByURL` (src/main.ts lines 522-538): dispatches on the
provider; any thrown error is caught, logged, and turned into `null`. -/
def fetchPhotoByURL (settings : PhotoSearchSettings) (net : Net) (provider id : String) :
    List Request × List String × Option Photo :=
  let handle : List Request × Except String (Option Photo) → List Request × List String × Option Photo :=
    fun r =>
      match r with
      | (reqs, Except.ok photo) => (reqs, [], photo)
      | (reqs, Except.error e) =>
        (reqs, ["Error fetching " ++ provider ++ " photo " ++ id ++ ": " ++ e], none)
  match provider with
  | "pexels" => handle (fetchPexelsPhoto settings net id)
  | "unsplash" => handle (fetchUnsplashPhoto settings net id)
  | "pixabay" => handle (fetchPixabayPhoto settings net id)
  | _ => ([], [], none)

/-- Requests issued and diagnostics logged during one aggregator run. -/
structure SearchEffects where
  requests : List Request
  logs : List String
deriving Repr, DecidableEq

/-- Aggregator `searchPhotos` (src/main.ts lines 626-668).  A query that
the URL Detector recognizes is delegated to the single matching
provider's fetch-by-id; otherwise each provider whose API key is
configured is searched in the fixed order Pexels, Unsplash, Pixabay, one
awaited after the other, each call wrapped in its own try/catch that
logs the error and continues. -/
def searchPhotos (settings : PhotoSearchSettings) (net : Net) (query : String) :
    SearchEffects × List Photo :=
  match detectPhotoURL query with
  | some (provider, id) =>
    let (reqs, logs, photo) := fetchPhotoByURL settings net provider id
    (⟨reqs, logs⟩, match photo with | some p => [p] | none => [])
  | none =>
    let pexelsPart :=
      if settings.pexelsApiKey ≠ "" then
        match searchPexels settings net query with
        | (reqs, Except.ok photos) => (reqs, ([] : List String), photos)
        | (reqs, Except.error e) => (reqs, ["Error searching Pexels: " ++ e], [])
      else ([], [], [])
    let unsplashPart :=
      if settings.unsplashApiKey ≠ "" then
        match searchUnsplash settings net query with
        | (reqs, Except.ok photos) => (reqs, ([] : List String), photos)
        | (reqs, Except.error e) => (reqs, ["Error searching Unsplash: " ++ e], [])
      else ([], [], [])
    let pixabayPart :=
      if settings.pixabayApiKey ≠ "" then
        match searchPixabay settings net query with
        | (reqs, Except.ok photos) => (reqs, ([] : List String), photos)
        | (reqs, Except.error e) => (reqs, ["Error searching Pixabay: " ++ e], [])
      else ([], [], [])
    (⟨pexelsPart.1 ++ unsplashPart.1 ++ pixabayPart.1,
      pexelsPart.2.1 ++ unsplashPart.2.1 ++ pixabayPart.2.1⟩,
      pexelsPart.2.2 ++ unsplashPart.2.2 ++ pixabayPart.2.2)

/-- Helper `formatAiStatus` (src/main.ts lines 906-921). -/
def formatAiStatus (settings : PhotoSearchSettings) (isAiGenerated : Option Bool)
    (source : String) : String :=
  match isAiGenerated with
  | some true => "Yes"
  | some false => "No"
  | none =>
    if source = "Unsplash" && !settings.includeAiImages then "No (filtered)"
    else if source = "Pixabay" && !settings.includeAiImages then "No (filtered)"
    else "Unknown"

/-- The user-visible outcome rendered by the search modal. -/
inductive DisplayOutcome where
  | apiKeyError
  | urlNotFound (provider : String)
  | noResults
  | photoGrid (photosByProvider : List (String × List Photo))
deriving Repr, DecidableEq

/-- The decision structure of `PhotoSearchModal.searchAndDisplayPhotos`
together with `displayPhotos` (src/main.ts lines 1011-1105 and
1107-1140): with no API key configured the modal renders the
configuration error and returns before any search; otherwise it runs the
aggregator, groups the photos by provider, and renders the grid (or the
appropriate empty-state message).  DOM construction is abstracted to the
outcome constructor. -/
def searchAndDisplayPhotos (settings : PhotoSearchSettings) (net : Net) (query : String) :
    SearchEffects × DisplayOutcome :=
  let hasApiKeys := settings.pexelsApiKey != "" || settings.unsplashApiKey != ""
    || settings.pixabayApiKey != ""
  if !hasApiKeys then (⟨[], []⟩, DisplayOutcome.apiKeyError)
  else
    let (effects, photos) := searchPhotos settings net query
    if photos.isEmpty then
      match detectPhotoURL query with
      | some (provider, _) => (effects, DisplayOutcome.urlNotFound provider)
      | none => (effects, DisplayOutcome.noResults)
    else
      (effects, DisplayOutcome.photoGrid
        [("pexels", photos.filter fun p => p.source == "Pexels"),
         ("unsplash", photos.filter fun p => p.source == "Unsplash"),
         ("pixabay", photos.filter fun p => p.source == "Pixabay")])

/-! ## The save step `savePhoto` (src/main.ts lines 738-904) -/

/-- Obsidian's `normalizePath` API (external to this repository); it
canonicalizes separators and, on the already-normalized
single-separator paths built by `savePhoto`, is the identity. -/
def normalizePath (p : String) : String := p

/-- JS `searchQuery.replace(/[^a-zA-Z0-9]/g, '_')` (line 756). -/
def sanitizeQuery (q : String) : String :=
  String.mk (q.toList.map fun c =>
    if ('a' ≤ c && c ≤ 'z') || ('A' ≤ c && c ≤ 'Z') || isAsciiDigit c then c else '_')

/-- JS `l.split('.').pop()`: the segment after the last dot (the whole
string when there is no dot). -/
def lastDotSegment (l : List Char) : List Char :=
  (l.reverse.takeWhile (fun c => c != '.')).reverse

/-- The extension detection of `savePhoto` (lines 744-754): Unsplash
always gets `jpg`; otherwise the candidate extension is taken from the
download URL and validated against the allowed list, falling back to
`jpg`. -/
def detectExtension (photo : Photo) : String :=
  if photo.source = "Unsplash" then "jpg"
  else
    let urlExtension := String.mk (jsSplitHead '?' (lastDotSegment photo.downloadUrl.toList))
    let lower := urlExtension.toLower
    if urlExtension != "" && (lower == "jpg" || lower == "jpeg" || lower == "png" || lower == "webp")
    then lower else "jpg"

/-- JS `baseFilename.replace(/\.[^/.]+$/, "")` (line 765): drops a final
`.ext` segment (nonempty, containing neither `.` nor `/`); leaves the
string unchanged when no such suffix exists. -/
def stripLastExt (f : String) : String :=
  let r := f.toList.reverse
  let seg := r.takeWhile fun c => c != '.' && c != '/'
  match r.drop seg.length with
  | '.' :: rs => if seg.isEmpty then f else String.mk rs.reverse
  | _ => f

/-- JS `baseFilename.split('.').pop()` (line 766). -/
def lastExt (f : String) : String := String.mk (lastDotSegment f.toList)

/-- One collision-avoidance filename:
`${baseName}_${counter}.${ext}` (line 767), where `baseName` and `ext`
are recomputed from `baseFilename` exactly as the source does. -/
def suffixFilename (baseFilename : String) (counter : Nat) : String :=
  stripLastExt baseFilename ++ "_" ++ toString counter ++ "." ++ lastExt baseFilename

/-- The `while (await this.app.vault.adapter.exists(finalPath))` loop of
`savePhoto` (lines 762-770), with explicit fuel (the source loop runs
until a candidate path is free).  State: current `(finalPath,
finalFilename)` pair and the counter. -/
def resolveCollision (vaultPaths : List String) (folder baseFilename : String) :
    Nat → String × String → Nat → String × String
  | 0, cur, _ => cur
  | fuel + 1, cur, counter =>
    if cur.1 ∈ vaultPaths then
      let finalFilename := suffixFilename baseFilename counter
      resolveCollision vaultPaths folder baseFilename fuel
        (normalizePath (folder ++ "/" ++ finalFilename), finalFilename) (counter + 1)
    else cur

/-- The final `(finalPath, finalFilename)` chosen by `savePhoto` for a
given base filename: the base path itself when free, otherwise the first
free numeric-suffix candidate (counter starting at 1). -/
def finalSavePath (vaultPaths : List String) (folder baseFilename : String) (fuel : Nat) :
    String × String :=
  resolveCollision vaultPaths folder baseFilename fuel
    (normalizePath (folder ++ "/" ++ baseFilename), baseFilename) 1

/-- Helper `formatFileSize` (src/main.ts lines 875-883).  The JS `Math.log` /
`toFixed(2)` / `parseFloat` floating-point formatting is abstracted by
integer arithmetic: same unit index, value truncated to two decimals
with trailing zeros dropped. -/
def formatFileSize (bytes : Nat) : String :=
  if bytes = 0 then "0 Bytes"
  else
    let i := Nat.log 1024 bytes
    let unit := (["Bytes", "KB", "MB", "GB"].getD i "GB")
    let scaled := bytes * 100 / 1024 ^ i
    let whole := scaled / 100
    let frac := scaled % 100
    let fracStr :=
      if frac = 0 then ""
      else if frac % 10 = 0 then "." ++ toString (frac / 10)
      else "." ++ (if frac < 10 then "0" else "") ++ toString frac
    toString whole ++ fracStr ++ " " ++ unit

/-- Helper `calculateMaxPrintSize` (src/main.ts lines 885-903).  The JS
`toFixed(1)` floating-point formatting is abstracted by integer tenths
(inches = pixels/300, centimetres = inches * 2.54). -/
def calculateMaxPrintSize (width height : Int) : String :=
  let tenthsStr := fun (t : Int) => toString (t / 10) ++ "." ++ toString (t % 10)
  let wIn := (width * 10 + 150) / 300
  let hIn := (height * 10 + 150) / 300
  let wCm := (width * 254 + 1500) / 3000
  let hCm := (height * 254 + 1500) / 3000
  tenthsStr wIn ++ "\" × " ++ tenthsStr hIn ++ "\" (" ++ tenthsStr wCm ++ " × "
    ++ tenthsStr hCm ++ " cm) at 300 DPI"

/-- The metadata block template inserted by `savePhoto`
(lines 846-864). -/
def metadataBlock (settings : PhotoSearchSettings) (photo : Photo) (searchQuery : String)
    (actualFilename : String) (imageDataLen : Nat) : String :=
  let fileSizeFormatted := formatFileSize imageDataLen
  let maxPrintSize := calculateMaxPrintSize photo.width photo.height
  let aiStatus := formatAiStatus settings photo.isAiGenerated photo.source
  "\n\n![[" ++ actualFilename ++ "|300]]\n\n> [!metadata]\n> - **Source**: " ++ photo.source
    ++ "\n> - **Photographer**: " ++ photo.photographer
    ++ "\n> - **Original**: [View on " ++ photo.source ++ "](" ++ photo.url ++ ")"
    ++ "\n> - **Search Query**: \"" ++ searchQuery ++ "\""
    ++ (match photo.description with
        | some d => if d = "" then "" else "\n> - **Description**: " ++ d
        | none => "")
    ++ "\n> - **Dimensions**: " ++ toString photo.width ++ " × " ++ toString photo.height
    ++ " pixels\n> - **File Size**: " ++ fileSizeFormatted
    ++ "\n> - **Max Print Size**: " ++ maxPrintSize
    ++ "\n> - **AI Generated**: " ++ aiStatus ++ "\n\n"

/-- Environment of one `savePhoto` run: the result of each effectful
operation (folder creation, the three possible binary downloads, binary
write) and whether an active markdown view exists.  A download result is
the byte length of the fetched body (`arrayBuffer.byteLength`);
`Except.error` models a thrown `requestUrl` / vault error. -/
structure SaveEnv where
  createFolderResult : Except String Unit
  downloadPlain : Except String Nat
  downloadAuth : Except String Nat
  downloadDirect : Except String Nat
  createBinaryResult : Except String Unit
  hasActiveView : Bool

/-- Observable state after one `savePhoto` run. -/
structure SaveOutcome where
  vaultPaths : List String
  inserted : List String
  notices : List String
  logs : List String
  returnedPath : Option String
deriving Repr, DecidableEq

/-- The catch-all branch of `savePhoto` (lines 868-871): log the error
and show the single error notice; nothing is returned. -/
def saveFailure (vaultPaths : List String) (e : String) : SaveOutcome :=
  { vaultPaths := vaultPaths
    inserted := []
    notices := ["Error saving photo. Check console for details."]
    logs := ["Error saving photo: " ++ e]
    returnedPath := none }

/-- The Unsplash download of `savePhoto` (lines 776-806): plain attempt
first; a thrown request or a zero-byte body falls back to the attempt
with the `Client-ID` auth header, whose own thrown request or zero-byte
body is the final error. -/
def unsplashDownload (env : SaveEnv) : Except String Nat :=
  let firstAttempt : Except String Nat :=
    match env.downloadPlain with
    | Except.ok n => if n = 0 then Except.error "No image data received from Unsplash" else Except.ok n
    | Except.error e => Except.error e
  match firstAttempt with
  | Except.ok n => Except.ok n
  | Except.error _ =>
    match env.downloadAuth with
    | Except.ok n =>
      if n = 0 then Except.error "No image data received from Unsplash with auth" else Except.ok n
    | Except.error e => Except.error e

/-- JS `finalPath.split('/').pop()`. -/
def lastSlashSegment (l : List Char) : List Char :=
  (l.reverse.takeWhile (fun c => c != '/')).reverse

/-- The download step of `savePhoto` (lines 774-812): Unsplash uses the
two-attempt download, Pexels and Pixabay a single direct download. -/
def downloadResult (photo : Photo) (env : SaveEnv) : Except String Nat :=
  if photo.source = "Unsplash" then unsplashDownload env else env.downloadDirect

/-- True when the binary download of `savePhoto` for this photo throws
or yields zero bytes (so that no valid image data is available). -/
def downloadFailedOrEmpty (photo : Photo) (env : SaveEnv) : Bool :=
  match downloadResult photo env with
  | Except.error _ => true
  | Except.ok n => n = 0

/-- Save step `savePhoto` (src/main.ts lines 738-872): ensure the save folder,
compute the collision-free filename, download the binary (with the
Unsplash fallback), verify it is nonempty, write it, then insert the
metadata block at the cursor of the active view (when one exists) and
show the success notice.  Every failure is caught by the surrounding
try/catch (`saveFailure`). -/
def savePhoto (settings : PhotoSearchSettings) (env : SaveEnv) (vaultPaths : List String)
    (photo : Photo) (searchQuery : String) (fuel : Nat) : SaveOutcome :=
  let folder := settings.saveLocation
  let folderStep : Except String (List String) :=
    if folder ∈ vaultPaths then Except.ok vaultPaths
    else
      match env.createFolderResult with
      | Except.ok _ => Except.ok (vaultPaths ++ [folder])
      | Except.error e => Except.error e
  match folderStep with
  | Except.error e => saveFailure vaultPaths e
  | Except.ok vault1 =>
    let extension := detectExtension photo
    let sanitizedQuery := sanitizeQuery searchQuery
    let baseFilename := sanitizedQuery ++ "_" ++ photo.id ++ "." ++ extension
    let final := finalSavePath vault1 folder baseFilename fuel
    match downloadResult photo env with
    | Except.error e => saveFailure vault1 e
    | Except.ok imageDataLen =>
      if imageDataLen = 0 then saveFailure vault1 "No valid image data received"
      else
        match env.createBinaryResult with
        | Except.error e => saveFailure vault1 e
        | Except.ok _ =>
          let vault2 := vault1 ++ [final.1]
          let seg := String.mk (lastSlashSegment final.1.toList)
          let actualFilename := if seg = "" then final.2 else seg
          { vaultPaths := vault2
            inserted :=
              if env.hasActiveView then
                [metadataBlock settings photo searchQuery actualFilename imageDataLen]
              else []
            notices := ["Photo saved: " ++ actualFilename]
            logs := []
            returnedPath := some final.1 }

/-! ## Query-parameter view of a URL (for the claims about the search
endpoints) -/

/-- Splits a character list at every occurrence of `sep`. -/
def splitOnChar (sep : Char) : List Char → List (List Char)
  | [] => [[]]
  | c :: cs =>
    let r := splitOnChar sep cs
    if c = sep then [] :: r
    else
      match r with
      | [] => [[c]]
      | h :: t => (c :: h) :: t

/-- The query parameters of a URL: the part after the first `?`, split
on `&`, each entry split at its first `=` (an entry without `=` gets
value `""`). -/
def queryParams (url : String) : List (String × String) :=
  let l := url.toList
  if l.all (fun c => c != '?') then []
  else
    (splitOnChar '&' ((l.dropWhile (fun c => c != '?')).drop 1)).map fun entry =>
      (String.mk (entry.takeWhile fun c => c != '='),
       String.mk ((entry.dropWhile (fun c => c != '=')).drop 1))

/-- The parameter names of a URL. -/
def paramNames (url : String) : List String := (queryParams url).map Prod.fst

/-- A network on which every endpoint throws (used to instantiate
theorems at concrete inputs). -/
def offlineNet : Net :=
  { pexelsSearchResp := fun _ => Except.error "net::ERR"
    unsplashSearchResp := fun _ => Except.error "net::ERR"
    pixabaySearchResp := fun _ => Except.error "net::ERR"
    pexelsPhotoResp := fun _ => Except.error "net::ERR"
    unsplashPhotoResp := fun _ => Except.error "net::ERR"
    pixabayPhotoResp := fun _ => Except.error "net::ERR" }

/-- A network on which every search succeeds with an empty result list
and every fetch throws (used to instantiate theorems at concrete
inputs). -/
def emptySearchNet : Net :=
  { pexelsSearchResp := fun _ => Except.ok []
    unsplashSearchResp := fun _ => Except.ok []
    pixabaySearchResp := fun _ => Except.ok []
    pexelsPhotoResp := fun _ => Except.error "HTTP 404"
    unsplashPhotoResp := fun _ => Except.error "HTTP 404"
    pixabayPhotoResp := fun _ => Except.error "HTTP 404" }

/-- Default settings of the plugin (`DEFAULT_SETTINGS` in src/main.ts),
with the three API keys configurable (used to instantiate theorems at
concrete inputs). -/
def settingsWithKeys (pexelsKey unsplashKey pixabayKey : String) : PhotoSearchSettings :=
  { pexelsApiKey := pexelsKey
    unsplashApiKey := unsplashKey
    pixabayApiKey := pixabayKey
    saveLocation := "Images/PhotoSearch"
    imageSize := "medium"
    saveMetadata := true
    includeAiImages := false
    defaultProvider := "unsplash" }

/-! ## Character classes of the claim-shaped URLs (used to state the
URL-Detector claim) -/

/-- Characters that survive the cleaning step unchanged: no whitespace
(so `trim` keeps them) and no query/fragment markers (so the splits cut
exactly at the suffix). -/
def bodyChar (c : Char) : Bool := !isJsWhitespaceChar c && c != '?' && c != '#'

/-- Characters allowed in the `<name>` segment of a claim-shaped photo
URL: body characters other than the path separator. -/
def urlNameChar (c : Char) : Bool := bodyChar c && c != '/'

/-- Name characters additionally free of dots (used in the URL shapes
of the providers tried later, so that the earlier regexes cannot
match anywhere in them). -/
def urlNameCharNoDot (c : Char) : Bool := urlNameChar c && c != '.'

/-- ASCII alphanumeric characters (the claim's "alphanumeric slug"). -/
def alphanumChar (c : Char) : Bool :=
  ('a' ≤ c && c ≤ 'z') || ('A' ≤ c && c ≤ 'Z') || isAsciiDigit c

/-- A legal trailing query-string/fragment suffix: empty, or starting
with `?` or `#` and whitespace-free. -/
def suffixOk (q : List Char) : Prop :=
  q = [] ∨ ∃ r, (q = '?' :: r ∨ q = '#' :: r) ∧ (r.all fun c => !isJsWhitespaceChar c) = true

/-- A concrete Pexels API photo (used to instantiate theorems). -/
def rawPexels0 : PexelsRawPhoto :=
  { id := 123
    url := "https://www.pexels.com/photo/cat-123/"
    src := ⟨"o", "l2", "l", "m", "s", "p", "ls", "t"⟩
    photographer := "Jo"
    alt := some "a cat"
    width := 300
    height := 200
    ai_generated := none }

/-- A network whose Pexels search endpoint returns exactly
`[rawPexels0]` (used to instantiate theorems). -/
def netPexels0 : Net :=
  { emptySearchNet with pexelsSearchResp := fun _ => Except.ok [rawPexels0] }

/-- A network where the Pexels search endpoint throws and the other two
succeed with an empty result list. -/
def netPexelsDown : Net :=
  { emptySearchNet with pexelsSearchResp := fun _ => Except.error "HTTP 500" }

/-- The Pexels leg of the aggregator's sequential fan-out (the first
try/catch block of `searchPhotos`, lines 637-645): requests, logs and
photos contributed by Pexels. -/
def pexelsSearchPart (settings : PhotoSearchSettings) (net : Net) (query : String) :
    List Request × List String × List Photo :=
  if settings.pexelsApiKey ≠ "" then
    match searchPexels settings net query with
    | (reqs, Except.ok photos) => (reqs, [], photos)
    | (reqs, Except.error e) => (reqs, ["Error searching Pexels: " ++ e], [])
  else ([], [], [])

/-- The Unsplash leg of the aggregator's sequential fan-out
(lines 647-655). -/
def unsplashSearchPart (settings : PhotoSearchSettings) (net : Net) (query : String) :
    List Request × List String × List Photo :=
  if settings.unsplashApiKey ≠ "" then
    match searchUnsplash settings net query with
    | (reqs, Except.ok photos) => (reqs, [], photos)
    | (reqs, Except.error e) => (reqs, ["Error searching Unsplash: " ++ e], [])
  else ([], [], [])

/-- The Pixabay leg of the aggregator's sequential fan-out
(lines 657-665). -/
def pixabaySearchPart (settings : PhotoSearchSettings) (net : Net) (query : String) :
    List Request × List String × List Photo :=
  if settings.pixabayApiKey ≠ "" then
    match searchPixabay settings net query with
    | (reqs, Except.ok photos) => (reqs, [], photos)
    | (reqs, Except.error e) => (reqs, ["Error searching Pixabay: " ++ e], [])
  else ([], [], [])

/-- Joins query parameters into the textual `n1=v1&n2=v2&...` form. -/
def joinParams : List (List Char × List Char) → List Char
  | [] => []
  | [(n, v)] => n ++ '=' :: v
  | (n, v) :: rest => n ++ '=' :: v ++ '&' :: joinParams rest

/-! ## Generic helper lemmas -/

/-- A character in class `cls` differs from any character outside it. -/
theorem ne_of_class {cls : Char → Bool} {c x : Char} (h : cls c = true) (hx : cls x = false) :
    c ≠ x := by
  intro he
  subst he
  rw [h] at hx
  simp at hx

/-- A character outside class `cls` is not a member of an all-`cls`
list. -/
theorem not_mem_of_all {cls : Char → Bool} {l : List Char} {x : Char}
    (h : l.all cls = true) (hx : cls x = false) : x ∉ l := by
  intro hm
  rw [List.all_eq_true] at h
  have h2 := h x hm
  rw [h2] at hx
  simp at hx

/-- Strings with the `pexels-` and `unsplash-` prefixes never coincide. -/
theorem pexels_ne_unsplash_prefixed (a b : String) : "pexels-" ++ a ≠ "unsplash-" ++ b := by
  intro h
  have h2 := congrArg String.data h
  rw [String.data_append, String.data_append] at h2
  have e1 : ("pexels-" : String).data = ['p', 'e', 'x', 'e', 'l', 's', '-'] := rfl
  have e2 : ("unsplash-" : String).data = ['u', 'n', 's', 'p', 'l', 'a', 's', 'h', '-'] := rfl
  rw [e1, e2] at h2
  simp at h2

/-- Strings with the `pexels-` and `pixabay-` prefixes never coincide. -/
theorem pexels_ne_pixabay_prefixed (a b : String) : "pexels-" ++ a ≠ "pixabay-" ++ b := by
  intro h
  have h2 := congrArg String.data h
  rw [String.data_append, String.data_append] at h2
  have e1 : ("pexels-" : String).data = ['p', 'e', 'x', 'e', 'l', 's', '-'] := rfl
  have e2 : ("pixabay-" : String).data = ['p', 'i', 'x', 'a', 'b', 'a', 'y', '-'] := rfl
  rw [e1, e2] at h2
  simp at h2

/-- Strings with the `unsplash-` and `pixabay-` prefixes never
coincide. -/
theorem unsplash_ne_pixabay_prefixed (a b : String) : "unsplash-" ++ a ≠ "pixabay-" ++ b := by
  intro h
  have h2 := congrArg String.data h
  rw [String.data_append, String.data_append] at h2
  have e1 : ("unsplash-" : String).data = ['u', 'n', 's', 'p', 'l', 'a', 's', 'h', '-'] := rfl
  have e2 : ("pixabay-" : String).data = ['p', 'i', 'x', 'a', 'b', 'a', 'y', '-'] := rfl
  rw [e1, e2] at h2
  simp at h2

/-! ## Claim C8 -/

/-- C8: the AI-generation status line of the saved metadata renders
`Yes` for a photo whose `isAiGenerated` flag is true, `No` for a photo
whose flag is false, and `No (filtered)` for a photo from a provider
that exposes no AI flag at all — the Unsplash and Pixabay adapters,
whose photos always carry `isAiGenerated = none` — when AI images are
excluded by the `includeAiImages` setting. -/
theorem c8_ai_status_rendering :
    (∀ settings src, formatAiStatus settings (some true) src = "Yes")
    ∧ (∀ settings src, formatAiStatus settings (some false) src = "No")
    ∧ (∀ settings photo, settings.includeAiImages = false →
        (mapUnsplashPhoto settings photo).isAiGenerated = none
        ∧ formatAiStatus settings (mapUnsplashPhoto settings photo).isAiGenerated
            (mapUnsplashPhoto settings photo).source = "No (filtered)")
    ∧ (∀ settings photo, settings.includeAiImages = false →
        (mapPixabayPhoto settings photo).isAiGenerated = none
        ∧ formatAiStatus settings (mapPixabayPhoto settings photo).isAiGenerated
            (mapPixabayPhoto settings photo).source = "No (filtered)") := by
  refine ⟨fun _ _ => rfl, fun _ _ => rfl, ?_, ?_⟩ <;>
    · intro s p h
      exact ⟨rfl, by simp [formatAiStatus, mapUnsplashPhoto, mapPixabayPhoto, h]⟩

/-- Closed instance of `c8_ai_status_rendering` at concrete inputs. -/
theorem c8_ai_status_rendering_witness :
    formatAiStatus (settingsWithKeys "" "k" "") (some true) "Pexels" = "Yes"
    ∧ formatAiStatus (settingsWithKeys "" "k" "") (some false) "Pexels" = "No"
    ∧ formatAiStatus (settingsWithKeys "" "k" "")
        (mapUnsplashPhoto (settingsWithKeys "" "k" "")
          ⟨"abc", "h", ⟨"r", "f", "g", "s", "t"⟩, "u", none, none, none, 3, 2⟩).isAiGenerated
        (mapUnsplashPhoto (settingsWithKeys "" "k" "")
          ⟨"abc", "h", ⟨"r", "f", "g", "s", "t"⟩, "u", none, none, none, 3, 2⟩).source
      = "No (filtered)" :=
  ⟨c8_ai_status_rendering.1 (settingsWithKeys "" "k" "") "Pexels",
   c8_ai_status_rendering.2.1 (settingsWithKeys "" "k" "") "Pexels",
   (c8_ai_status_rendering.2.2.1 (settingsWithKeys "" "k" "")
     ⟨"abc", "h", ⟨"r", "f", "g", "s", "t"⟩, "u", none, none, none, 3, 2⟩ rfl).2⟩

/-! ## Claim C9 -/

/-- C9: every Photo constructed by any of the three provider adapters
(via search or fetch-by-id) has `source` equal to the producing
provider's name and `id` prefixed with that provider's name; the three
prefixed id families are pairwise disjoint, so ids are globally unique
across providers even when two providers use the same raw numeric
id. -/
theorem c9_source_and_id_prefixed :
    (∀ settings net query reqs photos, searchPexels settings net query = (reqs, Except.ok photos) →
      ∀ p ∈ photos, p.source = "Pexels" ∧ ∃ n : Nat, p.id = "pexels-" ++ toString n)
    ∧ (∀ settings net query reqs photos,
        searchUnsplash settings net query = (reqs, Except.ok photos) →
        ∀ p ∈ photos, p.source = "Unsplash" ∧ ∃ rid : String, p.id = "unsplash-" ++ rid)
    ∧ (∀ settings net query reqs photos,
        searchPixabay settings net query = (reqs, Except.ok photos) →
        ∀ p ∈ photos, p.source = "Pixabay" ∧ ∃ n : Nat, p.id = "pixabay-" ++ toString n)
    ∧ (∀ settings net pid reqs p, fetchPexelsPhoto settings net pid = (reqs, Except.ok (some p)) →
        p.source = "Pexels" ∧ ∃ n : Nat, p.id = "pexels-" ++ toString n)
    ∧ (∀ settings net pid reqs p, fetchUnsplashPhoto settings net pid = (reqs, Except.ok (some p)) →
        p.source = "Unsplash" ∧ ∃ rid : String, p.id = "unsplash-" ++ rid)
    ∧ (∀ settings net pid reqs p, fetchPixabayPhoto settings net pid = (reqs, Except.ok (some p)) →
        p.source = "Pixabay" ∧ ∃ n : Nat, p.id = "pixabay-" ++ toString n)
    ∧ (∀ a b : String, "pexels-" ++ a ≠ "unsplash-" ++ b)
    ∧ (∀ a b : String, "pexels-" ++ a ≠ "pixabay-" ++ b)
    ∧ (∀ a b : String, "unsplash-" ++ a ≠ "pixabay-" ++ b) := by
  refine ⟨?_, ?_, ?_, ?_, ?_, ?_,
    pexels_ne_unsplash_prefixed, pexels_ne_pixabay_prefixed, unsplash_ne_pixabay_prefixed⟩
  · intro s net q reqs photos h p hp
    have h2 := congrArg Prod.snd h
    simp only [searchPexels] at h2
    cases hr : net.pexelsSearchResp q with
    | error e => rw [hr] at h2; simp [Except.map] at h2
    | ok l =>
      rw [hr] at h2
      simp only [Except.map, Except.ok.injEq] at h2
      rw [← h2] at hp
      obtain ⟨raw, _, hraw⟩ := List.mem_map.mp hp
      exact ⟨hraw ▸ rfl, raw.id, hraw ▸ rfl⟩
  · intro s net q reqs photos h p hp
    have h2 := congrArg Prod.snd h
    simp only [searchUnsplash] at h2
    cases hr : net.unsplashSearchResp q with
    | error e => rw [hr] at h2; simp [Except.map] at h2
    | ok l =>
      rw [hr] at h2
      simp only [Except.map, Except.ok.injEq] at h2
      rw [← h2] at hp
      obtain ⟨raw, _, hraw⟩ := List.mem_map.mp hp
      exact ⟨hraw ▸ rfl, raw.id, hraw ▸ rfl⟩
  · intro s net q reqs photos h p hp
    have h2 := congrArg Prod.snd h
    simp only [searchPixabay] at h2
    cases hr : net.pixabaySearchResp q with
    | error e => rw [hr] at h2; simp [Except.map] at h2
    | ok l =>
      rw [hr] at h2
      simp only [Except.map, Except.ok.injEq] at h2
      rw [← h2] at hp
      obtain ⟨raw, _, hraw⟩ := List.mem_map.mp hp
      exact ⟨hraw ▸ rfl, raw.id, hraw ▸ rfl⟩
  · intro s net pid reqs p h
    by_cases hk : s.pexelsApiKey = ""
    · simp [fetchPexelsPhoto, hk] at h
    · unfold fetchPexelsPhoto at h
      rw [if_neg hk] at h
      cases hr : net.pexelsPhotoResp pid with
      | error e => rw [hr] at h; simp [Except.map] at h
      | ok raw =>
        rw [hr] at h
        simp only [Except.map, Prod.mk.injEq, Except.ok.injEq, Option.some.injEq] at h
        obtain ⟨-, h2⟩ := h
        subst h2
        exact ⟨rfl, raw.id, rfl⟩
  · intro s net pid reqs p h
    by_cases hk : s.unsplashApiKey = ""
    · simp [fetchUnsplashPhoto, hk] at h
    · unfold fetchUnsplashPhoto at h
      rw [if_neg hk] at h
      cases hr : net.unsplashPhotoResp pid with
      | error e => rw [hr] at h; simp [Except.map] at h
      | ok raw =>
        rw [hr] at h
        simp only [Except.map, Prod.mk.injEq, Except.ok.injEq, Option.some.injEq] at h
        obtain ⟨-, h2⟩ := h
        subst h2
        exact ⟨rfl, raw.id, rfl⟩
  · intro s net pid reqs p h
    by_cases hk : s.pixabayApiKey = ""
    · simp [fetchPixabayPhoto, hk] at h
    · unfold fetchPixabayPhoto at h
      rw [if_neg hk] at h
      cases hr : net.pixabayPhotoResp pid with
      | error e => rw [hr] at h; simp [Except.map] at h
      | ok hits =>
        rw [hr] at h
        cases hits with
        | nil => simp [Except.map] at h
        | cons raw rest =>
          simp only [Except.map, Prod.mk.injEq, Except.ok.injEq, Option.some.injEq] at h
          obtain ⟨-, h2⟩ := h
          subst h2
          exact ⟨rfl, raw.id, rfl⟩

/-- Closed instance of `c9_source_and_id_prefixed` at concrete inputs. -/
theorem c9_source_and_id_prefixed_witness :
    (mapPexelsPhoto (settingsWithKeys "k" "" "") rawPexels0).source = "Pexels"
    ∧ ∃ n : Nat,
        (mapPexelsPhoto (settingsWithKeys "k" "" "") rawPexels0).id = "pexels-" ++ toString n :=
  c9_source_and_id_prefixed.1 (settingsWithKeys "k" "" "") netPexels0 "cat"
    [Request.searchReq "pexels" (pexelsSearchUrl "cat")]
    [mapPexelsPhoto (settingsWithKeys "k" "" "") rawPexels0] rfl
    (mapPexelsPhoto (settingsWithKeys "k" "" "") rawPexels0) (List.mem_singleton.mpr rfl)

/-! ## Claims C7, C1, C3, C10 — the aggregator -/

/-- C7: with none of the three provider API keys configured and a
non-URL query, the aggregator returns an empty result set, issues no
HTTP request and logs nothing, and the modal signals the `API Keys
Required` configuration error (before any search) instead of a search
failure. -/
theorem c7_no_keys_no_http (settings : PhotoSearchSettings) (net : Net) (query : String)
    (hp : settings.pexelsApiKey = "") (hu : settings.unsplashApiKey = "")
    (hx : settings.pixabayApiKey = "") (hq : detectPhotoURL query = none) :
    searchPhotos settings net query = (⟨[], []⟩, [])
    ∧ searchAndDisplayPhotos settings net query = (⟨[], []⟩, DisplayOutcome.apiKeyError) := by
  constructor
  · simp [searchPhotos, hq, hp, hu, hx]
  · simp [searchAndDisplayPhotos, hp, hu, hx]

/-- Closed instance of `c7_no_keys_no_http` at concrete inputs. -/
theorem c7_no_keys_no_http_witness :
    searchPhotos (settingsWithKeys "" "" "") offlineNet "mountain sunset" = (⟨[], []⟩, [])
    ∧ searchAndDisplayPhotos (settingsWithKeys "" "" "") offlineNet "mountain sunset"
      = (⟨[], []⟩, DisplayOutcome.apiKeyError) :=
  c7_no_keys_no_http (settingsWithKeys "" "" "") offlineNet "mountain sunset"
    rfl rfl rfl (by decide)

/-- C1: for a non-URL query, when one configured provider's search call
throws and the other configured providers succeed, `searchPhotos`
returns exactly the concatenation of the successful configured
providers' mapped results and logs exactly the one failure; being a
total function into photo lists (every adapter call is wrapped in its
own try/catch), it never propagates an exception that aborts the whole
search.  The three conjuncts cover the failing provider being Pexels,
Unsplash and Pixabay respectively. -/
theorem c1_partial_result_policy (settings : PhotoSearchSettings) (net : Net) (query : String)
    (hq : detectPhotoURL query = none) :
    (∀ e lu lx, settings.pexelsApiKey ≠ "" →
      (settings.unsplashApiKey ≠ "" ∨ settings.pixabayApiKey ≠ "") →
      net.pexelsSearchResp query = Except.error e →
      net.unsplashSearchResp query = Except.ok lu →
      net.pixabaySearchResp query = Except.ok lx →
      (searchPhotos settings net query).2 =
        (if settings.unsplashApiKey ≠ "" then lu.map (mapUnsplashPhoto settings) else [])
        ++ (if settings.pixabayApiKey ≠ "" then lx.map (mapPixabayPhoto settings) else [])
      ∧ (searchPhotos settings net query).1.logs = ["Error searching Pexels: " ++ e])
    ∧ (∀ lp e lx, settings.unsplashApiKey ≠ "" →
      (settings.pexelsApiKey ≠ "" ∨ settings.pixabayApiKey ≠ "") →
      net.pexelsSearchResp query = Except.ok lp →
      net.unsplashSearchResp query = Except.error e →
      net.pixabaySearchResp query = Except.ok lx →
      (searchPhotos settings net query).2 =
        (if settings.pexelsApiKey ≠ "" then
          (lp.filter fun photo =>
            settings.includeAiImages || !(orFalse photo.ai_generated)).map
              (mapPexelsPhoto settings)
         else [])
        ++ (if settings.pixabayApiKey ≠ "" then lx.map (mapPixabayPhoto settings) else [])
      ∧ (searchPhotos settings net query).1.logs = ["Error searching Unsplash: " ++ e])
    ∧ (∀ lp lu e, settings.pixabayApiKey ≠ "" →
      (settings.pexelsApiKey ≠ "" ∨ settings.unsplashApiKey ≠ "") →
      net.pexelsSearchResp query = Except.ok lp →
      net.unsplashSearchResp query = Except.ok lu →
      net.pixabaySearchResp query = Except.error e →
      (searchPhotos settings net query).2 =
        (if settings.pexelsApiKey ≠ "" then
          (lp.filter fun photo =>
            settings.includeAiImages || !(orFalse photo.ai_generated)).map
              (mapPexelsPhoto settings)
         else [])
        ++ (if settings.unsplashApiKey ≠ "" then lu.map (mapUnsplashPhoto settings) else [])
      ∧ (searchPhotos settings net query).1.logs = ["Error searching Pixabay: " ++ e]) := by
  refine ⟨?_, ?_, ?_⟩
  · intro e lu lx hk _ hrp hru hrx
    constructor <;>
      · simp only [searchPhotos, hq, searchPexels, searchUnsplash, searchPixabay, hrp, hru, hrx,
          Except.map, if_pos hk]
        split_ifs <;> simp
  · intro lp e lx hk _ hrp hru hrx
    constructor <;>
      · simp only [searchPhotos, hq, searchPexels, searchUnsplash, searchPixabay, hrp, hru, hrx,
          Except.map, if_pos hk]
        split_ifs <;> simp
  · intro lp lu e hk _ hrp hru hrx
    constructor <;>
      · simp only [searchPhotos, hq, searchPexels, searchUnsplash, searchPixabay, hrp, hru, hrx,
          Except.map, if_pos hk]
        split_ifs <;> simp

/-- Closed instance of `c1_partial_result_policy` at concrete inputs:
all three providers configured, Pexels down, Unsplash and Pixabay each
returning an empty page. -/
theorem c1_partial_result_policy_witness :
    (searchPhotos (settingsWithKeys "kp" "ku" "kx") netPexelsDown "cat").2 = []
    ∧ (searchPhotos (settingsWithKeys "kp" "ku" "kx") netPexelsDown "cat").1.logs
      = ["Error searching Pexels: HTTP 500"] := by
  have h := (c1_partial_result_policy (settingsWithKeys "kp" "ku" "kx") netPexelsDown "cat"
    (by decide)).1 "HTTP 500" [] [] (by decide) (Or.inl (by decide)) rfl rfl rfl
  exact ⟨by rw [h.1]; rfl, h.2⟩

/-- The requests issued by `fetchPhotoByURL` are all fetch-by-id
requests of the dispatched provider — never search requests. -/
theorem fetchPhotoByURL_requests_tagged (settings : PhotoSearchSettings) (net : Net)
    (provider pid : String) :
    ∀ r ∈ (fetchPhotoByURL settings net provider pid).1, ∃ u, r = Request.fetchReq provider u := by
  intro r hr
  unfold fetchPhotoByURL at hr
  split at hr
  · unfold fetchPexelsPhoto at hr
    split at hr
    · simp at hr
    · rcases hf : net.pexelsPhotoResp pid with e | raw <;> rw [hf] at hr <;>
        simp_all [Except.map]
  · unfold fetchUnsplashPhoto at hr
    split at hr
    · simp at hr
    · rcases hf : net.unsplashPhotoResp pid with e | raw <;> rw [hf] at hr <;>
        simp_all [Except.map]
  · unfold fetchPixabayPhoto at hr
    split at hr
    · simp at hr
    · rcases hf : net.pixabayPhotoResp pid with e | raw <;> rw [hf] at hr <;>
        simp_all [Except.map]
  · simp at hr

/-- C3: for every query the URL Detector recognizes, `searchPhotos`
delegates to exactly that provider's fetch-by-id: it returns the
one-element list when the photo resolves and the empty list otherwise,
and every request it issues is a fetch-by-id request of that provider —
it never issues a free-text search request. -/
theorem c3_url_delegation (settings : PhotoSearchSettings) (net : Net)
    (query provider pid : String)
    (h : detectPhotoURL query = some (provider, pid)) :
    ((searchPhotos settings net query).2 =
       match (fetchPhotoByURL settings net provider pid).2.2 with
       | some p => [p]
       | none => [])
    ∧ (searchPhotos settings net query).2.length ≤ 1
    ∧ (∀ r ∈ (searchPhotos settings net query).1.requests,
        ∃ u, r = Request.fetchReq provider u) := by
  refine ⟨?_, ?_, ?_⟩
  · simp only [searchPhotos, h]
  · simp only [searchPhotos, h]
    rcases (fetchPhotoByURL settings net provider pid).2.2 with _ | p <;> simp
  · simp only [searchPhotos, h]
    exact fetchPhotoByURL_requests_tagged settings net provider pid

/-- Closed instance of `c3_url_delegation` at a concrete URL query whose
photo does not resolve (fetch throws): the result is the empty list and
no search request is issued. -/
theorem c3_url_delegation_witness :
    (searchPhotos (settingsWithKeys "kp" "ku" "kx") offlineNet
      "https://www.pexels.com/photo/cat-123/").2 = []
    ∧ (∀ r ∈ (searchPhotos (settingsWithKeys "kp" "ku" "kx") offlineNet
        "https://www.pexels.com/photo/cat-123/").1.requests,
        ∃ u, r = Request.fetchReq "pexels" u) := by
  have h := c3_url_delegation (settingsWithKeys "kp" "ku" "kx") offlineNet
    "https://www.pexels.com/photo/cat-123/" "pexels" "123" (by decide)
  exact ⟨by rw [h.1]; rfl, h.2.2⟩

/-- For a non-URL query the aggregator is exactly the concatenation of
its three provider legs, in the fixed order Pexels, Unsplash,
Pixabay. -/
theorem searchPhotos_decomposition (settings : PhotoSearchSettings) (net : Net) (query : String)
    (hq : detectPhotoURL query = none) :
    searchPhotos settings net query =
      (⟨(pexelsSearchPart settings net query).1 ++ (unsplashSearchPart settings net query).1
          ++ (pixabaySearchPart settings net query).1,
        (pexelsSearchPart settings net query).2.1 ++ (unsplashSearchPart settings net query).2.1
          ++ (pixabaySearchPart settings net query).2.1⟩,
       (pexelsSearchPart settings net query).2.2 ++ (unsplashSearchPart settings net query).2.2
          ++ (pixabaySearchPart settings net query).2.2) := by
  simp only [searchPhotos, hq, pexelsSearchPart, unsplashSearchPart, pixabaySearchPart]

/-- Every photo contributed by the Pexels leg carries source
`Pexels`. -/
theorem pexelsSearchPart_sources (settings : PhotoSearchSettings) (net : Net) (query : String) :
    ∀ p ∈ (pexelsSearchPart settings net query).2.2, p.source = "Pexels" := by
  intro p hp
  unfold pexelsSearchPart at hp
  split at hp
  · split at hp
    · rename_i reqs photos heq
      have h2 := congrArg Prod.snd heq
      simp only [searchPexels] at h2
      rcases hr : net.pexelsSearchResp query with e | l <;> rw [hr] at h2 <;>
        simp only [Except.map, Except.ok.injEq] at h2
      · exact absurd h2 (by simp)
      · rw [← h2] at hp
        obtain ⟨raw, -, hraw⟩ := List.mem_map.mp hp
        rw [← hraw]
        rfl
    · simp at hp
  · simp at hp

/-- Every photo contributed by the Unsplash leg carries source
`Unsplash`. -/
theorem unsplashSearchPart_sources (settings : PhotoSearchSettings) (net : Net) (query : String) :
    ∀ p ∈ (unsplashSearchPart settings net query).2.2, p.source = "Unsplash" := by
  intro p hp
  unfold unsplashSearchPart at hp
  split at hp
  · split at hp
    · rename_i reqs photos heq
      have h2 := congrArg Prod.snd heq
      simp only [searchUnsplash] at h2
      rcases hr : net.unsplashSearchResp query with e | l <;> rw [hr] at h2 <;>
        simp only [Except.map, Except.ok.injEq] at h2
      · exact absurd h2 (by simp)
      · rw [← h2] at hp
        obtain ⟨raw, -, hraw⟩ := List.mem_map.mp hp
        rw [← hraw]
        rfl
    · simp at hp
  · simp at hp

/-- Every photo contributed by the Pixabay leg carries source
`Pixabay`. -/
theorem pixabaySearchPart_sources (settings : PhotoSearchSettings) (net : Net) (query : String) :
    ∀ p ∈ (pixabaySearchPart settings net query).2.2, p.source = "Pixabay" := by
  intro p hp
  unfold pixabaySearchPart at hp
  split at hp
  · split at hp
    · rename_i reqs photos heq
      have h2 := congrArg Prod.snd heq
      simp only [searchPixabay] at h2
      rcases hr : net.pixabaySearchResp query with e | l <;> rw [hr] at h2 <;>
        simp only [Except.map, Except.ok.injEq] at h2
      · exact absurd h2 (by simp)
      · rw [← h2] at hp
        obtain ⟨raw, -, hraw⟩ := List.mem_map.mp hp
        rw [← hraw]
        rfl
    · simp at hp
  · simp at hp

/-- Every request issued by the Pexels leg is a Pexels search
request. -/
theorem pexelsSearchPart_requests (settings : PhotoSearchSettings) (net : Net) (query : String) :
    ∀ r ∈ (pexelsSearchPart settings net query).1, ∃ u, r = Request.searchReq "pexels" u := by
  intro r hr
  unfold pexelsSearchPart at hr
  split at hr
  · split at hr <;>
      · rename_i heq
        have h1 := congrArg Prod.fst heq
        simp only [searchPexels] at h1
        rw [← h1] at hr
        simp only [List.mem_singleton] at hr
        exact ⟨_, hr⟩
  · simp at hr

/-- Every request issued by the Unsplash leg is an Unsplash search
request. -/
theorem unsplashSearchPart_requests (settings : PhotoSearchSettings) (net : Net) (query : String) :
    ∀ r ∈ (unsplashSearchPart settings net query).1, ∃ u, r = Request.searchReq "unsplash" u := by
  intro r hr
  unfold unsplashSearchPart at hr
  split at hr
  · split at hr <;>
      · rename_i heq
        have h1 := congrArg Prod.fst heq
        simp only [searchUnsplash] at h1
        rw [← h1] at hr
        simp only [List.mem_singleton] at hr
        exact ⟨_, hr⟩
  · simp at hr

/-- Every request issued by the Pixabay leg is a Pixabay search
request. -/
theorem pixabaySearchPart_requests (settings : PhotoSearchSettings) (net : Net) (query : String) :
    ∀ r ∈ (pixabaySearchPart settings net query).1, ∃ u, r = Request.searchReq "pixabay" u := by
  intro r hr
  unfold pixabaySearchPart at hr
  split at hr
  · split at hr <;>
      · rename_i heq
        have h1 := congrArg Prod.fst heq
        simp only [searchPixabay] at h1
        rw [← h1] at hr
        simp only [List.mem_singleton] at hr
        exact ⟨_, hr⟩
  · simp at hr

/-- C10: for every non-URL query, the aggregator's result is the three
providers' contributions concatenated in the fixed order Pexels,
Unsplash, Pixabay (each configured provider queried and awaited before
the next), so photos of one provider are contiguous, the request log is
ordered the same way, and — the aggregator being a pure function of the
settings and the provider responses — the output is deterministic. -/
theorem c10_fixed_provider_order (settings : PhotoSearchSettings) (net : Net) (query : String)
    (hq : detectPhotoURL query = none) :
    ∃ a b c ra rb rc,
      (searchPhotos settings net query).2 = a ++ b ++ c
      ∧ (searchPhotos settings net query).1.requests = ra ++ rb ++ rc
      ∧ (∀ p ∈ a, p.source = "Pexels") ∧ (∀ p ∈ b, p.source = "Unsplash")
      ∧ (∀ p ∈ c, p.source = "Pixabay")
      ∧ (∀ r ∈ ra, ∃ u, r = Request.searchReq "pexels" u)
      ∧ (∀ r ∈ rb, ∃ u, r = Request.searchReq "unsplash" u)
      ∧ (∀ r ∈ rc, ∃ u, r = Request.searchReq "pixabay" u) := by
  refine ⟨(pexelsSearchPart settings net query).2.2, (unsplashSearchPart settings net query).2.2,
    (pixabaySearchPart settings net query).2.2, (pexelsSearchPart settings net query).1,
    (unsplashSearchPart settings net query).1, (pixabaySearchPart settings net query).1,
    ?_, ?_, pexelsSearchPart_sources settings net query,
    unsplashSearchPart_sources settings net query, pixabaySearchPart_sources settings net query,
    pexelsSearchPart_requests settings net query, unsplashSearchPart_requests settings net query,
    pixabaySearchPart_requests settings net query⟩
  · rw [searchPhotos_decomposition settings net query hq]
  · rw [searchPhotos_decomposition settings net query hq]

/-- Closed instance of `c10_fixed_provider_order` at concrete inputs. -/
theorem c10_fixed_provider_order_witness :
    ∃ a b c ra rb rc,
      (searchPhotos (settingsWithKeys "kp" "ku" "kx") emptySearchNet "cat").2 = a ++ b ++ c
      ∧ (searchPhotos (settingsWithKeys "kp" "ku" "kx") emptySearchNet "cat").1.requests
        = ra ++ rb ++ rc
      ∧ (∀ p ∈ a, p.source = "Pexels") ∧ (∀ p ∈ b, p.source = "Unsplash")
      ∧ (∀ p ∈ c, p.source = "Pixabay")
      ∧ (∀ r ∈ ra, ∃ u, r = Request.searchReq "pexels" u)
      ∧ (∀ r ∈ rb, ∃ u, r = Request.searchReq "unsplash" u)
      ∧ (∀ r ∈ rc, ∃ u, r = Request.searchReq "pixabay" u) :=
  c10_fixed_provider_order (settingsWithKeys "kp" "ku" "kx") emptySearchNet "cat" (by decide)

/-! ## Claim C6 — the search endpoint URLs -/

/-- Weakening of `List.all` along a pointwise implication. -/
theorem all_weaken {p q : Char → Bool} (h : ∀ c, p c = true → q c = true) {l : List Char}
    (hl : l.all p = true) : l.all q = true := by
  rw [List.all_eq_true] at hl ⊢
  exact fun c hc => h c (hl c hc)

/-- Lemma: `takeWhile` walks through an all-true front segment. -/
theorem takeWhile_all_append {p : Char → Bool} {a : List Char} (h : a.all p = true)
    (b : List Char) : (a ++ b).takeWhile p = a ++ b.takeWhile p := by
  induction a with
  | nil => rfl
  | cons c cs ih =>
    simp only [List.all_cons, Bool.and_eq_true] at h
    simp [List.takeWhile_cons, h.1, ih h.2]

/-- Lemma: `dropWhile` walks through an all-true front segment. -/
theorem dropWhile_all_append {p : Char → Bool} {a : List Char} (h : a.all p = true)
    (b : List Char) : (a ++ b).dropWhile p = b.dropWhile p := by
  induction a with
  | nil => rfl
  | cons c cs ih =>
    simp only [List.all_cons, Bool.and_eq_true] at h
    simp [List.dropWhile_cons, h.1, ih h.2]

/-- Lemma: `takeWhile` keeps an all-true list whole. -/
theorem takeWhile_all_eq {p : Char → Bool} {a : List Char} (h : a.all p = true) :
    a.takeWhile p = a := by
  induction a with
  | nil => rfl
  | cons c cs ih =>
    simp only [List.all_cons, Bool.and_eq_true] at h
    simp [List.takeWhile_cons, h.1, ih h.2]

/-- Lemma: `splitOnChar` does not split a separator-free list. -/
theorem splitOnChar_all_ne {sep : Char} {a : List Char}
    (h : a.all (fun c => c != sep) = true) : splitOnChar sep a = [a] := by
  induction a with
  | nil => rfl
  | cons c cs ih =>
    simp only [List.all_cons, Bool.and_eq_true, bne_iff_ne] at h
    rw [splitOnChar, ih h.2]
    simp [h.1]

/-- Lemma: `splitOnChar` splits exactly at a leading separator occurrence. -/
theorem splitOnChar_append_sep {sep : Char} {a : List Char}
    (h : a.all (fun c => c != sep) = true) (b : List Char) :
    splitOnChar sep (a ++ sep :: b) = a :: splitOnChar sep b := by
  induction a with
  | nil => simp [splitOnChar]
  | cons c cs ih =>
    simp only [List.all_cons, Bool.and_eq_true, bne_iff_ne] at h
    rw [List.cons_append, splitOnChar, ih h.2]
    simp [h.1]

/-- Hexadecimal digit characters are URI-unreserved. -/
theorem hexDigitChar_unreserved (n : Nat) : isUriUnreserved (hexDigitChar n) = true := by
  unfold hexDigitChar
  split <;> rfl

/-- Every character of an `encodeURIComponent` output is either
URI-unreserved or the percent sign. -/
theorem encodeURIComponent_safe (q : String) :
    ∀ c ∈ (encodeURIComponent q).data, isUriUnreserved c = true ∨ c = '%' := by
  intro c hc
  have hc2 : c ∈ (q.toList.map encodeChar).flatten := hc
  obtain ⟨l, hl, hcl⟩ := List.mem_flatten.mp hc2
  obtain ⟨x, -, hx⟩ := List.mem_map.mp hl
  subst hx
  unfold encodeChar at hcl
  split at hcl
  · rename_i hu
    rw [List.mem_singleton] at hcl
    subst hcl
    exact Or.inl hu
  · obtain ⟨l2, hl2, hcl2⟩ := List.mem_flatten.mp hcl
    obtain ⟨b, -, hb⟩ := List.mem_map.mp hl2
    subst hb
    unfold percentByte at hcl2
    simp only [List.mem_cons, List.not_mem_nil, or_false] at hcl2
    rcases hcl2 with h1 | h1 | h1 <;> subst h1
    · exact Or.inr rfl
    · exact Or.inl (hexDigitChar_unreserved _)
    · exact Or.inl (hexDigitChar_unreserved _)

/-- An `encodeURIComponent` output contains no `&`, `=` or `?`: the
encoding escapes every URL metacharacter. -/
theorem encode_param_safe (q : String) :
    (encodeURIComponent q).data.all
      (fun c => c != '&' && c != '=' && c != '?') = true := by
  rw [List.all_eq_true]
  intro c hc
  rcases encodeURIComponent_safe q c hc with h | h
  · simp only [Bool.and_eq_true, bne_iff_ne]
    exact ⟨⟨ne_of_class h (by decide), ne_of_class h (by decide)⟩, ne_of_class h (by decide)⟩
  · subst h
    decide

/-- Projection bridge: an `all` fact about a pair's first component. -/
theorem pair_fst_all {n v : List Char} {p : Char → Bool} (h : n.all p = true) :
    ((n, v).1.all p) = true := h

/-- Projection bridge: an `all` fact about a pair's second component. -/
theorem pair_snd_all {n v : List Char} {p : Char → Bool} (h : v.all p = true) :
    ((n, v).2.all p) = true := h

/-- Splitting a joined parameter list on `&` recovers the entries, as
long as names and values are `&`-free. -/
theorem splitOnChar_joinParams (ps : List (List Char × List Char)) (hne : ps ≠ [])
    (hps : ∀ p ∈ ps,
      (p.1.all fun c => c != '&') = true ∧ (p.2.all fun c => c != '&') = true) :
    splitOnChar '&' (joinParams ps) = ps.map fun p => p.1 ++ '=' :: p.2 := by
  induction ps with
  | nil => simp at hne
  | cons hd tl ih =>
    rcases hd with ⟨n, v⟩
    obtain ⟨hn, hv⟩ := hps (n, v) (List.mem_cons_self _ _)
    cases tl with
    | nil =>
      rw [show joinParams [(n, v)] = n ++ '=' :: v from rfl]
      rw [splitOnChar_all_ne (by
        rw [List.all_append, List.all_cons]
        simp [hn, hv])]
      rfl
    | cons hd2 tl2 =>
      rw [show joinParams ((n, v) :: hd2 :: tl2)
          = n ++ '=' :: v ++ '&' :: joinParams (hd2 :: tl2) from rfl]
      rw [show n ++ '=' :: v ++ '&' :: joinParams (hd2 :: tl2)
          = (n ++ '=' :: v) ++ '&' :: joinParams (hd2 :: tl2) by simp]
      rw [splitOnChar_append_sep (by
        rw [List.all_append, List.all_cons]
        simp [hn, hv])]
      rw [ih (by simp) (fun p hp => hps p (List.mem_cons_of_mem _ hp))]
      rfl

/-- Parsing each joined `name=value` entry at its first `=` recovers the
name and the value, as long as names are `=`-free. -/
theorem parse_joined (ps : List (List Char × List Char))
    (hnames : ∀ p ∈ ps, (p.1.all fun c => c != '=') = true) :
    (ps.map fun p => p.1 ++ '=' :: p.2).map
        (fun entry => (String.mk (entry.takeWhile fun c => c != '='),
          String.mk ((entry.dropWhile (fun c => c != '=')).drop 1)))
      = ps.map fun p => (String.mk p.1, String.mk p.2) := by
  induction ps with
  | nil => rfl
  | cons hd tl ih =>
    rcases hd with ⟨n, v⟩
    have hn := hnames (n, v) (List.mem_cons_self _ _)
    simp only [List.map_cons]
    rw [ih (fun p hp => hnames p (List.mem_cons_of_mem _ hp))]
    rw [takeWhile_all_append hn, dropWhile_all_append hn]
    simp [List.takeWhile_cons, List.dropWhile_cons]

/-- The query-parameter view of a URL of the shape
`pre ? n1=v1&n2=v2&...` recovers exactly the built parameters. -/
theorem queryParams_shape (pre : List Char) (ps : List (List Char × List Char)) (url : String)
    (hurl : url.toList = pre ++ '?' :: joinParams ps)
    (hpre : pre.all (fun c => c != '?') = true)
    (hne : ps ≠ [])
    (hamp : ∀ p ∈ ps,
      (p.1.all fun c => c != '&') = true ∧ (p.2.all fun c => c != '&') = true)
    (heq2 : ∀ p ∈ ps, (p.1.all fun c => c != '=') = true) :
    queryParams url = ps.map fun p => (String.mk p.1, String.mk p.2) := by
  rw [queryParams, hurl]
  have hall : ((pre ++ '?' :: joinParams ps).all fun c => c != '?') = false := by
    rw [List.all_append, List.all_cons]
    simp
  rw [hall]
  simp only [Bool.false_eq_true, if_false]
  rw [dropWhile_all_append hpre, List.dropWhile_cons]
  simp only [bne_self_eq_false, Bool.false_eq_true, if_false, List.drop_succ_cons,
    List.drop_zero]
  rw [splitOnChar_joinParams ps hne hamp, parse_joined ps heq2]

/-- The parameters of a Pexels search URL: the URL-encoded query and
the fixed page size, nothing else. -/
theorem queryParams_pexelsSearchUrl (q : String) :
    queryParams (pexelsSearchUrl q) = [("query", encodeURIComponent q), ("per_page", "20")] := by
  have hsafe := all_weaken (p := fun c => c != '&' && c != '=' && c != '?')
    (q := fun c => c != '&') (by intro c h; simp only [Bool.and_eq_true] at h; exact h.1.1)
    (encode_param_safe q)
  have h := queryParams_shape "https://api.pexels.com/v1/search".toList
    [("query".toList, (encodeURIComponent q).data), ("per_page".toList, "20".toList)]
    (pexelsSearchUrl q)
    (by
      show ("https://api.pexels.com/v1/search?query=" ++ encodeURIComponent q
        ++ "&per_page=20").data = _
      rw [String.data_append, String.data_append]
      have e2 : ("https://api.pexels.com/v1/search?query=" : String).data
          = "https://api.pexels.com/v1/search".toList ++ '?' :: "query".toList ++ ['='] := by
        decide
      have e3 : ("&per_page=20" : String).data
          = '&' :: "per_page".toList ++ '=' :: "20".toList := by decide
      rw [e2, e3]
      rw [show joinParams [("query".toList, (encodeURIComponent q).data),
        ("per_page".toList, "20".toList)]
          = "query".toList ++ '=' :: (encodeURIComponent q).data
            ++ '&' :: ("per_page".toList ++ '=' :: "20".toList) from rfl]
      simp [List.append_assoc])
    (by decide) (by simp)
    (by
      intro p hp
      simp only [List.mem_cons, List.not_mem_nil, or_false] at hp
      rcases hp with h1 | h1 <;> subst h1
      · exact ⟨pair_fst_all (by decide), pair_snd_all hsafe⟩
      · exact ⟨pair_fst_all (by decide), pair_snd_all (by decide)⟩)
    (by
      intro p hp
      simp only [List.mem_cons, List.not_mem_nil, or_false] at hp
      rcases hp with h1 | h1 <;> subst h1 <;> exact pair_fst_all (by decide))
  rw [h]
  rfl

/-- The parameters of an Unsplash search URL: the URL-encoded query,
the fixed page size, and (when AI images are excluded) the content
filter — nothing else. -/
theorem queryParams_unsplashSearchUrl (settings : PhotoSearchSettings) (q : String) :
    queryParams (unsplashSearchUrl settings q)
      = if settings.includeAiImages then
          [("query", encodeURIComponent q), ("per_page", "20")]
        else
          [("query", encodeURIComponent q), ("per_page", "20"), ("content_filter", "high")] := by
  have hsafe := all_weaken (p := fun c => c != '&' && c != '=' && c != '?')
    (q := fun c => c != '&') (by intro c h; simp only [Bool.and_eq_true] at h; exact h.1.1)
    (encode_param_safe q)
  have e2 : ("https://api.unsplash.com/search/photos?query=" : String).data
      = "https://api.unsplash.com/search/photos".toList ++ '?' :: "query".toList ++ ['='] := by
    decide
  cases hai : settings.includeAiImages with
  | true =>
    have h := queryParams_shape "https://api.unsplash.com/search/photos".toList
      [("query".toList, (encodeURIComponent q).data), ("per_page".toList, "20".toList)]
      (unsplashSearchUrl settings q)
      (by
        rw [unsplashSearchUrl, hai]
        show ("https://api.unsplash.com/search/photos?query=" ++ encodeURIComponent q
          ++ "&per_page=20" ++ "").data = _
        rw [String.data_append, String.data_append, String.data_append]
        have e3 : ("&per_page=20" : String).data
            = '&' :: "per_page".toList ++ '=' :: "20".toList := by decide
        rw [e2, e3]
        rw [show joinParams [("query".toList, (encodeURIComponent q).data),
          ("per_page".toList, "20".toList)]
            = "query".toList ++ '=' :: (encodeURIComponent q).data
              ++ '&' :: ("per_page".toList ++ '=' :: "20".toList) from rfl]
        simp [List.append_assoc])
      (by decide) (by simp)
      (by
        intro p hp
        simp only [List.mem_cons, List.not_mem_nil, or_false] at hp
        rcases hp with h1 | h1 <;> subst h1
        · exact ⟨pair_fst_all (by decide), pair_snd_all hsafe⟩
        · exact ⟨pair_fst_all (by decide), pair_snd_all (by decide)⟩)
      (by
        intro p hp
        simp only [List.mem_cons, List.not_mem_nil, or_false] at hp
        rcases hp with h1 | h1 <;> subst h1 <;> exact pair_fst_all (by decide))
    rw [h]
    rfl
  | false =>
    have h := queryParams_shape "https://api.unsplash.com/search/photos".toList
      [("query".toList, (encodeURIComponent q).data), ("per_page".toList, "20".toList),
        ("content_filter".toList, "high".toList)]
      (unsplashSearchUrl settings q)
      (by
        rw [unsplashSearchUrl, hai]
        show ("https://api.unsplash.com/search/photos?query=" ++ encodeURIComponent q
          ++ "&per_page=20" ++ "&content_filter=high").data = _
        rw [String.data_append, String.data_append, String.data_append]
        have e3 : ("&per_page=20" : String).data
            = '&' :: "per_page".toList ++ '=' :: "20".toList := by decide
        have e4 : ("&content_filter=high" : String).data
            = '&' :: "content_filter".toList ++ '=' :: "high".toList := by decide
        rw [e2, e3, e4]
        rw [show joinParams [("query".toList, (encodeURIComponent q).data),
          ("per_page".toList, "20".toList), ("content_filter".toList, "high".toList)]
            = "query".toList ++ '=' :: (encodeURIComponent q).data
              ++ '&' :: ("per_page".toList ++ '=' :: ("20".toList
                ++ '&' :: ("content_filter".toList ++ '=' :: "high".toList))) from rfl]
        simp [List.append_assoc])
      (by decide) (by simp)
      (by
        intro p hp
        simp only [List.mem_cons, List.not_mem_nil, or_false] at hp
        rcases hp with h1 | h1 | h1 <;> subst h1
        · exact ⟨pair_fst_all (by decide), pair_snd_all hsafe⟩
        · exact ⟨pair_fst_all (by decide), pair_snd_all (by decide)⟩
        · exact ⟨pair_fst_all (by decide), pair_snd_all (by decide)⟩)
      (by
        intro p hp
        simp only [List.mem_cons, List.not_mem_nil, or_false] at hp
        rcases hp with h1 | h1 | h1 <;> subst h1 <;> exact pair_fst_all (by decide))
    rw [h]
    rfl

/-- The parameters of a Pixabay search URL (for an API key free of URL
metacharacters): the key, the URL-encoded query, the fixed image type
and page size, and (when AI images are excluded) the AI filter —
nothing else. -/
theorem queryParams_pixabaySearchUrl (settings : PhotoSearchSettings) (q : String)
    (hkey : (settings.pixabayApiKey.data.all
      fun c => c != '&' && c != '=' && c != '?') = true) :
    queryParams (pixabaySearchUrl settings q)
      = if settings.includeAiImages then
          [("key", settings.pixabayApiKey), ("q", encodeURIComponent q),
            ("image_type", "photo"), ("per_page", "20")]
        else
          [("key", settings.pixabayApiKey), ("q", encodeURIComponent q),
            ("image_type", "photo"), ("per_page", "20"), ("ai_art", "false")] := by
  have hsafe := all_weaken (p := fun c => c != '&' && c != '=' && c != '?')
    (q := fun c => c != '&') (by intro c h; simp only [Bool.and_eq_true] at h; exact h.1.1)
    (encode_param_safe q)
  have hkeyA := all_weaken (p := fun c => c != '&' && c != '=' && c != '?')
    (q := fun c => c != '&') (by intro c h; simp only [Bool.and_eq_true] at h; exact h.1.1) hkey
  have e2 : ("https://pixabay.com/api/?key=" : String).data
      = "https://pixabay.com/api/".toList ++ '?' :: "key".toList ++ ['='] := by decide
  have e3 : ("&q=" : String).data = '&' :: "q".toList ++ ['='] := by decide
  have e4 : ("&image_type=photo&per_page=20" : String).data
      = '&' :: "image_type".toList ++ '=' :: ("photo".toList
        ++ '&' :: ("per_page".toList ++ '=' :: "20".toList)) := by decide
  cases hai : settings.includeAiImages with
  | true =>
    have h := queryParams_shape "https://pixabay.com/api/".toList
      [("key".toList, settings.pixabayApiKey.data), ("q".toList, (encodeURIComponent q).data),
        ("image_type".toList, "photo".toList), ("per_page".toList, "20".toList)]
      (pixabaySearchUrl settings q)
      (by
        rw [pixabaySearchUrl, hai]
        show ("https://pixabay.com/api/?key=" ++ settings.pixabayApiKey ++ "&q="
          ++ encodeURIComponent q ++ "&image_type=photo&per_page=20" ++ "").data = _
        rw [String.data_append, String.data_append, String.data_append, String.data_append,
          String.data_append]
        rw [e2, e3, e4]
        rw [show joinParams [("key".toList, settings.pixabayApiKey.data),
          ("q".toList, (encodeURIComponent q).data),
          ("image_type".toList, "photo".toList), ("per_page".toList, "20".toList)]
            = "key".toList ++ '=' :: settings.pixabayApiKey.data
              ++ '&' :: ("q".toList ++ '=' :: ((encodeURIComponent q).data
                ++ '&' :: ("image_type".toList ++ '=' :: ("photo".toList
                  ++ '&' :: ("per_page".toList ++ '=' :: "20".toList))))) from rfl]
        simp [List.append_assoc])
      (by decide) (by simp)
      (by
        intro p hp
        simp only [List.mem_cons, List.not_mem_nil, or_false] at hp
        rcases hp with h1 | h1 | h1 | h1 <;> subst h1
        · exact ⟨pair_fst_all (by decide), pair_snd_all hkeyA⟩
        · exact ⟨pair_fst_all (by decide), pair_snd_all hsafe⟩
        · exact ⟨pair_fst_all (by decide), pair_snd_all (by decide)⟩
        · exact ⟨pair_fst_all (by decide), pair_snd_all (by decide)⟩)
      (by
        intro p hp
        simp only [List.mem_cons, List.not_mem_nil, or_false] at hp
        rcases hp with h1 | h1 | h1 | h1 <;> subst h1 <;> exact pair_fst_all (by decide))
    rw [h]
    rfl
  | false =>
    have h := queryParams_shape "https://pixabay.com/api/".toList
      [("key".toList, settings.pixabayApiKey.data), ("q".toList, (encodeURIComponent q).data),
        ("image_type".toList, "photo".toList), ("per_page".toList, "20".toList),
        ("ai_art".toList, "false".toList)]
      (pixabaySearchUrl settings q)
      (by
        rw [pixabaySearchUrl, hai]
        show ("https://pixabay.com/api/?key=" ++ settings.pixabayApiKey ++ "&q="
          ++ encodeURIComponent q ++ "&image_type=photo&per_page=20"
          ++ "&ai_art=false").data = _
        rw [String.data_append, String.data_append, String.data_append, String.data_append,
          String.data_append]
        have e5 : ("&ai_art=false" : String).data
            = '&' :: "ai_art".toList ++ '=' :: "false".toList := by decide
        rw [e2, e3, e4, e5]
        rw [show joinParams [("key".toList, settings.pixabayApiKey.data),
          ("q".toList, (encodeURIComponent q).data),
          ("image_type".toList, "photo".toList), ("per_page".toList, "20".toList),
          ("ai_art".toList, "false".toList)]
            = "key".toList ++ '=' :: settings.pixabayApiKey.data
              ++ '&' :: ("q".toList ++ '=' :: ((encodeURIComponent q).data
                ++ '&' :: ("image_type".toList ++ '=' :: ("photo".toList
                  ++ '&' :: ("per_page".toList ++ '=' :: ("20".toList
                    ++ '&' :: ("ai_art".toList ++ '=' :: "false".toList))))))) from rfl]
        simp [List.append_assoc])
      (by decide) (by simp)
      (by
        intro p hp
        simp only [List.mem_cons, List.not_mem_nil, or_false] at hp
        rcases hp with h1 | h1 | h1 | h1 | h1 <;> subst h1
        · exact ⟨pair_fst_all (by decide), pair_snd_all hkeyA⟩
        · exact ⟨pair_fst_all (by decide), pair_snd_all hsafe⟩
        · exact ⟨pair_fst_all (by decide), pair_snd_all (by decide)⟩
        · exact ⟨pair_fst_all (by decide), pair_snd_all (by decide)⟩
        · exact ⟨pair_fst_all (by decide), pair_snd_all (by decide)⟩)
      (by
        intro p hp
        simp only [List.mem_cons, List.not_mem_nil, or_false] at hp
        rcases hp with h1 | h1 | h1 | h1 | h1 <;> subst h1 <;> exact pair_fst_all (by decide))
    rw [h]
    rfl

/-- C6 counterexample: the claim that each search call carries "an
explicit page number" is false on the code.  At the concrete query
`cat`, the Pexels adapter issues exactly one request whose URL is
`https://api.pexels.com/v1/search?query=cat&per_page=20`; its parameter
names are exactly `query` and `per_page` — there is no `page`
parameter — and likewise no `page` parameter occurs in the Unsplash or
Pixabay search URLs. -/
theorem c6_no_page_number_counterexample :
    (searchPexels (settingsWithKeys "kp" "ku" "kx") offlineNet "cat").1
      = [Request.searchReq "pexels" "https://api.pexels.com/v1/search?query=cat&per_page=20"]
    ∧ paramNames "https://api.pexels.com/v1/search?query=cat&per_page=20"
      = ["query", "per_page"]
    ∧ "page" ∉ paramNames "https://api.pexels.com/v1/search?query=cat&per_page=20"
    ∧ "page" ∉ paramNames (unsplashSearchUrl (settingsWithKeys "kp" "ku" "kx") "cat")
    ∧ "page" ∉ paramNames (pixabaySearchUrl (settingsWithKeys "kp" "ku" "kx") "cat") := by
  refine ⟨?_, ?_, ?_, ?_, ?_⟩ <;> decide

/-- C6 (amended): for every configured provider and every free-text
query, the provider's search operation issues exactly one request to
that provider's search endpoint, whose parameters carry the URL-encoded
query and the fixed page size of 20 results per page (plus the fixed
provider-specific filter parameters); no page-number parameter is sent
(the code always fetches the first page).  For Pixabay the API key is
assumed free of URL metacharacters. -/
theorem c6_search_url_query_encoded_per_page_20 (settings : PhotoSearchSettings) (net : Net)
    (q : String)
    (hkey : (settings.pixabayApiKey.data.all
      fun c => c != '&' && c != '=' && c != '?') = true) :
    ((searchPexels settings net q).1 = [Request.searchReq "pexels" (pexelsSearchUrl q)]
      ∧ queryParams (pexelsSearchUrl q)
        = [("query", encodeURIComponent q), ("per_page", "20")]
      ∧ "page" ∉ paramNames (pexelsSearchUrl q))
    ∧ ((searchUnsplash settings net q).1
        = [Request.searchReq "unsplash" (unsplashSearchUrl settings q)]
      ∧ queryParams (unsplashSearchUrl settings q)
        = (if settings.includeAiImages then
            [("query", encodeURIComponent q), ("per_page", "20")]
          else
            [("query", encodeURIComponent q), ("per_page", "20"), ("content_filter", "high")])
      ∧ "page" ∉ paramNames (unsplashSearchUrl settings q))
    ∧ ((searchPixabay settings net q).1
        = [Request.searchReq "pixabay" (pixabaySearchUrl settings q)]
      ∧ queryParams (pixabaySearchUrl settings q)
        = (if settings.includeAiImages then
            [("key", settings.pixabayApiKey), ("q", encodeURIComponent q),
              ("image_type", "photo"), ("per_page", "20")]
          else
            [("key", settings.pixabayApiKey), ("q", encodeURIComponent q),
              ("image_type", "photo"), ("per_page", "20"), ("ai_art", "false")])
      ∧ "page" ∉ paramNames (pixabaySearchUrl settings q)) := by
  refine ⟨⟨rfl, queryParams_pexelsSearchUrl q, ?_⟩,
    ⟨rfl, queryParams_unsplashSearchUrl settings q, ?_⟩,
    ⟨rfl, queryParams_pixabaySearchUrl settings q hkey, ?_⟩⟩
  · rw [paramNames, queryParams_pexelsSearchUrl q]
    simp only [List.map_cons, List.map_nil]
    decide
  · rw [paramNames, queryParams_unsplashSearchUrl settings q]
    cases settings.includeAiImages <;>
      · simp only [if_true, if_false, Bool.false_eq_true, List.map_cons, List.map_nil]
        decide
  · rw [paramNames, queryParams_pixabaySearchUrl settings q hkey]
    cases settings.includeAiImages <;>
      · simp only [if_true, if_false, Bool.false_eq_true, List.map_cons, List.map_nil,
          List.mem_cons, List.not_mem_nil, or_false]
        push_neg
        refine ⟨by decide, by decide, by decide, by decide⟩

/-- Closed instance of `c6_search_url_query_encoded_per_page_20` at
concrete inputs. -/
theorem c6_search_url_query_encoded_per_page_20_witness :
    (searchPexels (settingsWithKeys "kp" "ku" "kx") offlineNet "cat dog").1
      = [Request.searchReq "pexels" (pexelsSearchUrl "cat dog")]
    ∧ queryParams (pexelsSearchUrl "cat dog")
      = [("query", encodeURIComponent "cat dog"), ("per_page", "20")]
    ∧ "page" ∉ paramNames (pexelsSearchUrl "cat dog") :=
  (c6_search_url_query_encoded_per_page_20 (settingsWithKeys "kp" "ku" "kx") offlineNet
    "cat dog" (by decide)).1

/-! ## Claim C4 — the collision-free filename of `savePhoto` -/

/-- A nonempty string has a nonempty character list. -/
theorem string_data_ne_nil {s : String} (h : s ≠ "") : s.data ≠ [] := by
  intro hd
  apply h
  cases s
  simp at hd
  simp [hd]

/-- The collision loop of `savePhoto`, entered at candidate `counter`
with every earlier state already checked: it stops at the least free
candidate index at or after `counter`, provided one exists within the
available fuel. -/
theorem resolveCollision_least (vault : List String) (folder base : String) :
    ∀ (fuel counter : Nat),
      (∃ n, counter ≤ n ∧ n < counter + fuel + 1
        ∧ normalizePath (folder ++ "/" ++ suffixFilename base n) ∉ vault) →
      ∃ N, counter ≤ N
        ∧ normalizePath (folder ++ "/" ++ suffixFilename base N) ∉ vault
        ∧ (∀ m, counter ≤ m → m < N →
            normalizePath (folder ++ "/" ++ suffixFilename base m) ∈ vault)
        ∧ resolveCollision vault folder base fuel
            (normalizePath (folder ++ "/" ++ suffixFilename base counter),
              suffixFilename base counter) (counter + 1)
          = (normalizePath (folder ++ "/" ++ suffixFilename base N), suffixFilename base N) := by
  intro fuel
  induction fuel with
  | zero =>
    intro counter hex
    obtain ⟨n, h1, h2, h3⟩ := hex
    have hn : n = counter := by omega
    subst hn
    exact ⟨n, le_refl _, h3, fun m hm1 hm2 => by omega, rfl⟩
  | succ f ih =>
    intro counter hex
    by_cases hfree : normalizePath (folder ++ "/" ++ suffixFilename base counter) ∈ vault
    · have hex2 : ∃ n, counter + 1 ≤ n ∧ n < counter + 1 + f + 1
          ∧ normalizePath (folder ++ "/" ++ suffixFilename base n) ∉ vault := by
        obtain ⟨n, h1, h2, h3⟩ := hex
        have hne : n ≠ counter := fun he => by rw [he] at h3; exact h3 hfree
        exact ⟨n, by omega, by omega, h3⟩
      obtain ⟨N, hN1, hN2, hN3, hN4⟩ := ih (counter + 1) hex2
      refine ⟨N, by omega, hN2, ?_, ?_⟩
      · intro m hm1 hm2
        rcases Nat.eq_or_lt_of_le hm1 with he | hl
        · rw [← he]
          exact hfree
        · exact hN3 m hl hm2
      · rw [resolveCollision, if_pos hfree]
        exact hN4
    · refine ⟨counter, le_refl _, hfree, fun m hm1 hm2 => by omega, ?_⟩
      rw [resolveCollision, if_neg hfree]

/-- The JS base-name/extension recomputation of the collision loop
(`replace(/\.[^/.]+$/, "")` and `split('.').pop()`) splits
`p ++ "." ++ ext` back into `p` and `ext` whenever the extension is
nonempty and free of dots and slashes. -/
theorem stripLastExt_append_ext (p ext : String) (hne : ext ≠ "")
    (hdot : '.' ∉ ext.data) (hslash : '/' ∉ ext.data) :
    stripLastExt (p ++ "." ++ ext) = p ∧ lastExt (p ++ "." ++ ext) = ext := by
  have hdata : (p ++ "." ++ ext).toList = p.data ++ '.' :: ext.data := by
    show ((p ++ ".") ++ ext).data = _
    rw [String.data_append, String.data_append]
    simp
  have hrev : (p.data ++ '.' :: ext.data).reverse
      = ext.data.reverse ++ '.' :: p.data.reverse := by
    simp
  have hall : (ext.data.reverse.all fun c => c != '.' && c != '/') = true := by
    rw [List.all_eq_true]
    intro c hc
    rw [List.mem_reverse] at hc
    simp only [Bool.and_eq_true, bne_iff_ne]
    exact ⟨fun he => hdot (he ▸ hc), fun he => hslash (he ▸ hc)⟩
  have hall2 : (ext.data.reverse.all fun c => c != '.') = true := by
    rw [List.all_eq_true]
    intro c hc
    rw [List.mem_reverse] at hc
    simp only [bne_iff_ne]
    exact fun he => hdot (he ▸ hc)
  have htake : ((p.data ++ '.' :: ext.data).reverse.takeWhile fun c => c != '.' && c != '/')
      = ext.data.reverse := by
    rw [hrev, takeWhile_all_append hall]
    simp [List.takeWhile_cons]
  constructor
  · rw [stripLastExt]
    simp only [hdata, htake]
    rw [hrev, List.drop_left]
    have hseg : ext.data.reverse.isEmpty = false := by
      cases h2 : ext.data.reverse with
      | nil =>
        rw [List.reverse_eq_nil_iff] at h2
        exact absurd h2 (string_data_ne_nil hne)
      | cons a as => rfl
    simp only [hseg, Bool.false_eq_true, if_false]
    simp
  · rw [lastExt, lastDotSegment]
    simp only [hdata, hrev]
    rw [takeWhile_all_append hall2]
    simp [List.takeWhile_cons]

/-- The extension `savePhoto` detects is always one of the four allowed
lowercase extensions. -/
theorem detectExtension_cases (photo : Photo) :
    detectExtension photo = "jpg" ∨ detectExtension photo = "jpeg"
    ∨ detectExtension photo = "png" ∨ detectExtension photo = "webp" := by
  unfold detectExtension
  split
  · exact Or.inl rfl
  · simp only []
    split
    · rename_i h
      rw [Bool.and_eq_true, Bool.or_eq_true, Bool.or_eq_true, Bool.or_eq_true] at h
      rcases h.2 with ((h1 | h1) | h1) | h1
      · exact Or.inl (of_decide_eq_true h1)
      · exact Or.inr (Or.inl (of_decide_eq_true h1))
      · exact Or.inr (Or.inr (Or.inl (of_decide_eq_true h1)))
      · exact Or.inr (Or.inr (Or.inr (of_decide_eq_true h1)))
    · exact Or.inl rfl

/-- The detected extension is nonempty and free of dots and slashes. -/
theorem detectExtension_good (photo : Photo) :
    detectExtension photo ≠ "" ∧ '.' ∉ (detectExtension photo).data
    ∧ '/' ∉ (detectExtension photo).data := by
  rcases detectExtension_cases photo with h | h | h | h <;> rw [h] <;>
    exact ⟨by decide, by decide, by decide⟩

/-- C4: in `savePhoto` the base filename is
`{sanitizedQuery}_{photo.id}.{extension}`; if its path already exists
in the save folder, the photo is saved under the candidate with the
smallest numeric suffix `_N` (N = 1, 2, ...) whose path does not yet
exist (otherwise under the base path itself); the chosen path never
collides with an existing path, hence saving two photos whose filenames
would collide produces two distinct files and neither overwrites the
other.  The final conjunct checks the suffix construction on the base
filename `savePhoto` actually builds. -/
theorem c4_collision_free_filename (vault : List String) (folder baseFilename : String)
    (fuel : Nat) :
    (normalizePath (folder ++ "/" ++ baseFilename) ∉ vault →
      finalSavePath vault folder baseFilename fuel
        = (normalizePath (folder ++ "/" ++ baseFilename), baseFilename))
    ∧ (normalizePath (folder ++ "/" ++ baseFilename) ∈ vault →
      (∃ n, 1 ≤ n ∧ n ≤ fuel
        ∧ normalizePath (folder ++ "/" ++ suffixFilename baseFilename n) ∉ vault) →
      ∃ N, 1 ≤ N
        ∧ normalizePath (folder ++ "/" ++ suffixFilename baseFilename N) ∉ vault
        ∧ (∀ m, 1 ≤ m → m < N →
            normalizePath (folder ++ "/" ++ suffixFilename baseFilename m) ∈ vault)
        ∧ finalSavePath vault folder baseFilename fuel
          = (normalizePath (folder ++ "/" ++ suffixFilename baseFilename N),
             suffixFilename baseFilename N))
    ∧ ((∃ n, 1 ≤ n ∧ n ≤ fuel
        ∧ normalizePath (folder ++ "/" ++ suffixFilename baseFilename n) ∉ vault) →
      (finalSavePath vault folder baseFilename fuel).1 ∉ vault)
    ∧ (∀ firstPath, firstPath ∈ vault →
      (∃ n, 1 ≤ n ∧ n ≤ fuel
        ∧ normalizePath (folder ++ "/" ++ suffixFilename baseFilename n) ∉ vault) →
      (finalSavePath vault folder baseFilename fuel).1 ≠ firstPath)
    ∧ (∀ (searchQuery : String) (photo : Photo) (n : Nat),
        suffixFilename
          (sanitizeQuery searchQuery ++ "_" ++ photo.id ++ "." ++ detectExtension photo) n
          = sanitizeQuery searchQuery ++ "_" ++ photo.id ++ "_" ++ toString n ++ "."
            ++ detectExtension photo) := by
  have part1 : normalizePath (folder ++ "/" ++ baseFilename) ∉ vault →
      finalSavePath vault folder baseFilename fuel
        = (normalizePath (folder ++ "/" ++ baseFilename), baseFilename) := by
    intro h
    cases fuel with
    | zero => rfl
    | succ f => rw [finalSavePath, resolveCollision, if_neg h]
  have part2 : normalizePath (folder ++ "/" ++ baseFilename) ∈ vault →
      (∃ n, 1 ≤ n ∧ n ≤ fuel
        ∧ normalizePath (folder ++ "/" ++ suffixFilename baseFilename n) ∉ vault) →
      ∃ N, 1 ≤ N
        ∧ normalizePath (folder ++ "/" ++ suffixFilename baseFilename N) ∉ vault
        ∧ (∀ m, 1 ≤ m → m < N →
            normalizePath (folder ++ "/" ++ suffixFilename baseFilename m) ∈ vault)
        ∧ finalSavePath vault folder baseFilename fuel
          = (normalizePath (folder ++ "/" ++ suffixFilename baseFilename N),
             suffixFilename baseFilename N) := by
    intro hmem hex
    cases fuel with
    | zero =>
      obtain ⟨n, h1, h2, -⟩ := hex
      omega
    | succ f =>
      obtain ⟨N, hN1, hN2, hN3, hN4⟩ := resolveCollision_least vault folder baseFilename f 1
        (by
          obtain ⟨n, h1, h2, h3⟩ := hex
          exact ⟨n, h1, by omega, h3⟩)
      refine ⟨N, hN1, hN2, hN3, ?_⟩
      rw [finalSavePath, resolveCollision, if_pos hmem]
      exact hN4
  have part3 : (∃ n, 1 ≤ n ∧ n ≤ fuel
        ∧ normalizePath (folder ++ "/" ++ suffixFilename baseFilename n) ∉ vault) →
      (finalSavePath vault folder baseFilename fuel).1 ∉ vault := by
    intro hex
    by_cases hmem : normalizePath (folder ++ "/" ++ baseFilename) ∈ vault
    · obtain ⟨N, -, hN2, -, hN4⟩ := part2 hmem hex
      rw [hN4]
      exact hN2
    · rw [part1 hmem]
      exact hmem
  refine ⟨part1, part2, part3, ?_, ?_⟩
  · intro firstPath hfp hex heq
    exact part3 hex (heq ▸ hfp)
  · intro searchQuery photo n
    obtain ⟨hne, hdot, hslash⟩ := detectExtension_good photo
    obtain ⟨h1, h2⟩ := stripLastExt_append_ext
      (sanitizeQuery searchQuery ++ "_" ++ photo.id) (detectExtension photo) hne hdot hslash
    rw [suffixFilename, h1, h2]

/-- Closed instance of `c4_collision_free_filename` at concrete inputs:
the base path and the `_1` candidate already exist, so the chosen file
is `cat_pexels-123_2.jpg` — distinct from both existing files. -/
theorem c4_collision_free_filename_witness :
    ∃ N, 1 ≤ N
      ∧ normalizePath ("Images/PhotoSearch" ++ "/"
          ++ suffixFilename "cat_pexels-123.jpg" N)
        ∉ ["Images/PhotoSearch", "Images/PhotoSearch/cat_pexels-123.jpg",
            "Images/PhotoSearch/cat_pexels-123_1.jpg"]
      ∧ (∀ m, 1 ≤ m → m < N →
          normalizePath ("Images/PhotoSearch" ++ "/"
            ++ suffixFilename "cat_pexels-123.jpg" m)
          ∈ ["Images/PhotoSearch", "Images/PhotoSearch/cat_pexels-123.jpg",
              "Images/PhotoSearch/cat_pexels-123_1.jpg"])
      ∧ finalSavePath
          ["Images/PhotoSearch", "Images/PhotoSearch/cat_pexels-123.jpg",
            "Images/PhotoSearch/cat_pexels-123_1.jpg"]
          "Images/PhotoSearch" "cat_pexels-123.jpg" 10
        = (normalizePath ("Images/PhotoSearch" ++ "/"
            ++ suffixFilename "cat_pexels-123.jpg" N),
           suffixFilename "cat_pexels-123.jpg" N) :=
  (c4_collision_free_filename
    ["Images/PhotoSearch", "Images/PhotoSearch/cat_pexels-123.jpg",
      "Images/PhotoSearch/cat_pexels-123_1.jpg"]
    "Images/PhotoSearch" "cat_pexels-123.jpg" 10).2.1 (by decide)
    ⟨2, by decide, by decide, by decide⟩

/-! ## Claim C5 — failure handling in `savePhoto` -/

/-- C5: when the binary download of `savePhoto` throws or yields zero
bytes, no image file is written to the vault (at most the save folder
is created) and no metadata block is inserted into the editor; and any
failing step — folder creation, download, or binary write — is caught,
logged, and surfaced as the single user-visible error notice, with
nothing returned to the caller. -/
theorem c5_failure_no_partial_state (settings : PhotoSearchSettings) (env : SaveEnv)
    (vault : List String) (photo : Photo) (searchQuery : String) (fuel : Nat) :
    (downloadFailedOrEmpty photo env = true →
      ((savePhoto settings env vault photo searchQuery fuel).vaultPaths = vault
        ∨ (savePhoto settings env vault photo searchQuery fuel).vaultPaths
          = vault ++ [settings.saveLocation])
      ∧ (savePhoto settings env vault photo searchQuery fuel).inserted = []
      ∧ (savePhoto settings env vault photo searchQuery fuel).returnedPath = none
      ∧ (savePhoto settings env vault photo searchQuery fuel).notices
        = ["Error saving photo. Check console for details."]
      ∧ (savePhoto settings env vault photo searchQuery fuel).logs ≠ [])
    ∧ (∀ e, settings.saveLocation ∉ vault → env.createFolderResult = Except.error e →
      (savePhoto settings env vault photo searchQuery fuel).vaultPaths = vault
      ∧ (savePhoto settings env vault photo searchQuery fuel).inserted = []
      ∧ (savePhoto settings env vault photo searchQuery fuel).returnedPath = none
      ∧ (savePhoto settings env vault photo searchQuery fuel).notices
        = ["Error saving photo. Check console for details."]
      ∧ (savePhoto settings env vault photo searchQuery fuel).logs ≠ [])
    ∧ (∀ e, downloadFailedOrEmpty photo env = false →
      env.createBinaryResult = Except.error e →
      (savePhoto settings env vault photo searchQuery fuel).inserted = []
      ∧ (savePhoto settings env vault photo searchQuery fuel).returnedPath = none
      ∧ (savePhoto settings env vault photo searchQuery fuel).notices
        = ["Error saving photo. Check console for details."]
      ∧ (savePhoto settings env vault photo searchQuery fuel).logs ≠ []) := by
  refine ⟨?_, ?_, ?_⟩
  · intro h
    unfold downloadFailedOrEmpty at h
    by_cases hf : settings.saveLocation ∈ vault
    · simp only [savePhoto, if_pos hf]
      rcases hd : downloadResult photo env with e | n <;> rw [hd] at h
      · simp [saveFailure]
      · have hn : n = 0 := by simpa using h
        subst hn
        simp [saveFailure]
    · rcases hcf : env.createFolderResult with e | u
      · simp only [savePhoto, if_neg hf, hcf]
        simp [saveFailure]
      · simp only [savePhoto, if_neg hf, hcf]
        rcases hd : downloadResult photo env with e | n <;> rw [hd] at h
        · simp [saveFailure]
        · have hn : n = 0 := by simpa using h
          subst hn
          simp [saveFailure]
  · intro e hf hcf
    simp only [savePhoto, if_neg hf, hcf]
    simp [saveFailure]
  · intro e h hcb
    unfold downloadFailedOrEmpty at h
    rcases hd : downloadResult photo env with e2 | n <;> rw [hd] at h
    · simp at h
    · have hn : n ≠ 0 := by simpa using h
      by_cases hf : settings.saveLocation ∈ vault
      · simp only [savePhoto, if_pos hf, hd, if_neg hn, hcb]
        simp [saveFailure]
      · rcases hcf : env.createFolderResult with e3 | u
        · simp only [savePhoto, if_neg hf, hcf]
          simp [saveFailure]
        · simp only [savePhoto, if_neg hf, hcf, hd, if_neg hn, hcb]
          simp [saveFailure]

/-- Closed instance of `c5_failure_no_partial_state` at concrete
inputs: the direct download of a Pixabay photo throws, so nothing is
written, nothing is inserted, and the single error notice is shown. -/
theorem c5_failure_no_partial_state_witness :
    ((savePhoto (settingsWithKeys "kp" "ku" "kx")
        ⟨Except.ok (), Except.error "x", Except.error "x", Except.error "HTTP 500",
          Except.ok (), true⟩
        ["Images/PhotoSearch"]
        (mapPixabayPhoto (settingsWithKeys "kp" "ku" "kx")
          ⟨7, "u", "p", "l", "w", "ph", "cat, animal", 3, 2⟩)
        "cat" 10).vaultPaths = ["Images/PhotoSearch"]
      ∨ (savePhoto (settingsWithKeys "kp" "ku" "kx")
        ⟨Except.ok (), Except.error "x", Except.error "x", Except.error "HTTP 500",
          Except.ok (), true⟩
        ["Images/PhotoSearch"]
        (mapPixabayPhoto (settingsWithKeys "kp" "ku" "kx")
          ⟨7, "u", "p", "l", "w", "ph", "cat, animal", 3, 2⟩)
        "cat" 10).vaultPaths = ["Images/PhotoSearch"] ++ ["Images/PhotoSearch"])
    ∧ (savePhoto (settingsWithKeys "kp" "ku" "kx")
        ⟨Except.ok (), Except.error "x", Except.error "x", Except.error "HTTP 500",
          Except.ok (), true⟩
        ["Images/PhotoSearch"]
        (mapPixabayPhoto (settingsWithKeys "kp" "ku" "kx")
          ⟨7, "u", "p", "l", "w", "ph", "cat, animal", 3, 2⟩)
        "cat" 10).inserted = []
    ∧ (savePhoto (settingsWithKeys "kp" "ku" "kx")
        ⟨Except.ok (), Except.error "x", Except.error "x", Except.error "HTTP 500",
          Except.ok (), true⟩
        ["Images/PhotoSearch"]
        (mapPixabayPhoto (settingsWithKeys "kp" "ku" "kx")
          ⟨7, "u", "p", "l", "w", "ph", "cat, animal", 3, 2⟩)
        "cat" 10).returnedPath = none
    ∧ (savePhoto (settingsWithKeys "kp" "ku" "kx")
        ⟨Except.ok (), Except.error "x", Except.error "x", Except.error "HTTP 500",
          Except.ok (), true⟩
        ["Images/PhotoSearch"]
        (mapPixabayPhoto (settingsWithKeys "kp" "ku" "kx")
          ⟨7, "u", "p", "l", "w", "ph", "cat, animal", 3, 2⟩)
        "cat" 10).notices = ["Error saving photo. Check console for details."]
    ∧ (savePhoto (settingsWithKeys "kp" "ku" "kx")
        ⟨Except.ok (), Except.error "x", Except.error "x", Except.error "HTTP 500",
          Except.ok (), true⟩
        ["Images/PhotoSearch"]
        (mapPixabayPhoto (settingsWithKeys "kp" "ku" "kx")
          ⟨7, "u", "p", "l", "w", "ph", "cat, animal", 3, 2⟩)
        "cat" 10).logs ≠ [] :=
  (c5_failure_no_partial_state (settingsWithKeys "kp" "ku" "kx")
    ⟨Except.ok (), Except.error "x", Except.error "x", Except.error "HTTP 500",
      Except.ok (), true⟩
    ["Images/PhotoSearch"]
    (mapPixabayPhoto (settingsWithKeys "kp" "ku" "kx")
      ⟨7, "u", "p", "l", "w", "ph", "cat, animal", 3, 2⟩)
    "cat" 10).1 (by decide)

/-! ## Claim C2 — the URL Detector -/

/-- Membership distributes over append (negative form). -/
theorem not_mem_append2 {x : Char} {a b : List Char} (ha : x ∉ a) (hb : x ∉ b) :
    x ∉ a ++ b := by
  intro h
  rcases List.mem_append.mp h with h2 | h2
  · exact ha h2
  · exact hb h2

/-- Membership distributes over cons (negative form). -/
theorem not_mem_cons2 {x c : Char} {l : List Char} (hc : x ≠ c) (hl : x ∉ l) :
    x ∉ c :: l := by
  intro h
  rcases List.mem_cons.mp h with h2 | h2
  · exact hc h2
  · exact hl h2

/-- Lemma: `dropWhile` keeps a list none of whose characters satisfy the
predicate. -/
theorem dropWhile_all_not {p : Char → Bool} {l : List Char}
    (h : (l.all fun c => !p c) = true) : l.dropWhile p = l := by
  induction l with
  | nil => rfl
  | cons c cs ih =>
    simp only [List.all_cons, Bool.and_eq_true, Bool.not_eq_true'] at h
    simp [List.dropWhile_cons, h.1]

/-- Lemma: `trim` keeps a whitespace-free list unchanged. -/
theorem jsTrim_all_eq {l : List Char} (h : (l.all fun c => !isJsWhitespaceChar c) = true) :
    jsTrim l = l := by
  rw [jsTrim, dropWhile_all_not h, dropWhile_all_not (by simpa using h)]
  simp

/-- The cleaning step of `detectPhotoURL` maps `body ++ suffix` to
`body` whenever the body is made of body characters and the suffix is a
legal query-string/fragment suffix. -/
theorem cleanInput_of_body {body q : List Char} (hb : body.all bodyChar = true)
    (hq : suffixOk q) : cleanInput (String.mk (body ++ q)) = body := by
  have hba1 : (body.all fun c => !isJsWhitespaceChar c) = true :=
    all_weaken (fun c hc => by
      simp only [bodyChar, Bool.and_eq_true] at hc
      exact hc.1.1) hb
  have hbq : (body.all fun c => c != '?') = true :=
    all_weaken (fun c hc => by
      simp only [bodyChar, Bool.and_eq_true] at hc
      exact hc.1.2) hb
  have hbh : (body.all fun c => c != '#') = true :=
    all_weaken (fun c hc => by
      simp only [bodyChar, Bool.and_eq_true] at hc
      exact hc.2) hb
  have hlist : (String.mk (body ++ q)).toList = body ++ q := rfl
  rcases hq with h | ⟨r, hqe, hr⟩
  · subst h
    rw [cleanInput, hlist, List.append_nil, jsTrim_all_eq hba1]
    simp only [jsSplitHead]
    rw [takeWhile_all_eq hbq, takeWhile_all_eq hbh]
  · have htrim : jsTrim (body ++ q) = body ++ q := by
      apply jsTrim_all_eq
      rw [List.all_append, hba1, Bool.true_and]
      rcases hqe with he | he <;> subst he <;>
        · rw [List.all_cons]
          exact Bool.and_eq_true_iff.mpr ⟨by decide, hr⟩
    rcases hqe with he | he <;> subst he
    · rw [cleanInput, hlist, htrim]
      simp only [jsSplitHead]
      rw [takeWhile_all_append hbq]
      simp only [List.takeWhile_cons, bne_self_eq_false, Bool.false_eq_true, if_false,
        List.append_nil]
      rw [takeWhile_all_eq hbh]
    · rw [cleanInput, hlist, htrim]
      simp only [jsSplitHead]
      rw [takeWhile_all_append hbq]
      simp only [List.takeWhile_cons]
      rw [if_pos (by decide)]
      rw [takeWhile_all_append hbh]
      simp only [List.takeWhile_cons, bne_self_eq_false, Bool.false_eq_true, if_false,
        List.append_nil]

/-- Stripping a literal succeeds exactly on the literal itself. -/
theorem dropLit_self (p r : List Char) : dropLit p (p ++ r) = some r := by
  induction p with
  | nil => rfl
  | cons c cs ih => simp [dropLit, ih]

/-- A successful literal strip decomposes the input. -/
theorem dropLit_sound {p l r : List Char} (h : dropLit p l = some r) : l = p ++ r := by
  induction p generalizing l with
  | nil =>
    simp only [dropLit, Option.some.injEq] at h
    simp [h]
  | cons c cs ih =>
    cases l with
    | nil => simp [dropLit] at h
    | cons d ds =>
      rw [dropLit] at h
      split at h
      · rename_i he
        rw [← he, List.cons_append, ih h]
      · simp at h

/-- The `[^\/]+-` matcher fails on dash-free input. -/
theorem dashSeg_none {l : List Char} (k : List Char → Option (List Char))
    (h : '-' ∉ l) : dashSeg k l = none := by
  induction l with
  | nil => rfl
  | cons c cs ih =>
    rw [dashSeg]
    split
    · rfl
    · rw [ih (fun hm => h (List.mem_cons_of_mem _ hm))]
      have hc : c ≠ '-' := fun he => h (he ▸ List.mem_cons_self _ _)
      simp [hc]

/-- The `[^\/]+-` matcher (inside the plus) closes at the final dash
when the remainder is dash-free and the continuation accepts it. -/
theorem dashSeg_hit {a m d : List Char} (k : List Char → Option (List Char))
    (ha : '/' ∉ a) (hm : '-' ∉ m) (hk : k m = some d) :
    dashSeg k (a ++ '-' :: m) = some d := by
  induction a with
  | nil =>
    rw [List.nil_append, dashSeg, dashSeg_none k hm]
    simp [hk]
  | cons c cs ih =>
    have hc : c ≠ '/' := fun he => ha (he ▸ List.mem_cons_self _ _)
    rw [List.cons_append, dashSeg]
    rw [ih (fun hm2 => ha (List.mem_cons_of_mem _ hm2))]
    simp [hc]

/-- The full `[^\/]+-` matcher splits at the final dash. -/
theorem dashPlus_hit {a m d : List Char} (k : List Char → Option (List Char))
    (hne : a ≠ []) (ha : '/' ∉ a) (hm : '-' ∉ m) (hk : k m = some d) :
    dashPlus k (a ++ '-' :: m) = some d := by
  cases a with
  | nil => exact absurd rfl hne
  | cons c cs =>
    have hc : c ≠ '/' := fun he => ha (he ▸ List.mem_cons_self _ _)
    rw [List.cons_append, dashPlus, if_neg hc]
    exact dashSeg_hit k (fun hm2 => ha (List.mem_cons_of_mem _ hm2)) hm hk

/-- The full `[^\/]+-` matcher fails on dash-free input. -/
theorem dashPlus_none {l : List Char} (k : List Char → Option (List Char))
    (h : '-' ∉ l) : dashPlus k l = none := by
  cases l with
  | nil => rfl
  | cons c cs =>
    rw [dashPlus]
    split
    · rfl
    · exact dashSeg_none k (fun hm => h (List.mem_cons_of_mem _ hm))

/-- The end matcher `(X+)\/?$` accepts a nonempty all-`X` core followed
by an optional slash and captures the core. -/
theorem classEnd_hit {cls : Char → Bool} {core t : List Char}
    (hne : core ≠ []) (hall : core.all cls = true)
    (hslash : cls '/' = false) (ht : t = [] ∨ t = ['/']) :
    classEnd cls (core ++ t) = some core := by
  have hlast : ∀ x, core.getLast? = some x → x ≠ '/' := by
    intro x hx he
    have hxm : x ∈ core := List.mem_of_getLast?_eq_some hx
    rw [he] at hxm
    have h2 := (List.all_eq_true.mp hall) '/' hxm
    rw [hslash] at h2
    exact absurd h2 (by simp)
  have h1 : core.isEmpty = false := by
    cases core with
    | nil => exact absurd rfl hne
    | cons a as => rfl
  rcases ht with h | h <;> subst h
  · rw [List.append_nil, classEnd]
    have hcond : ¬(core.getLast? = some '/') := fun hc => hlast '/' hc rfl
    rw [if_neg hcond]
    simp [h1, hall]
  · rw [classEnd]
    have hcond : (core ++ ['/']).getLast? = some '/' := by
      rw [List.getLast?_concat]
    rw [if_pos hcond]
    simp only [List.dropLast_concat]
    simp [h1, hall]

/-- The `@user/` scanner stops at the first slash. -/
theorem userSlash_hit {u m : List Char} (hu : '/' ∉ u) :
    userSlash (u ++ '/' :: m) = slugEnd m := by
  induction u with
  | nil => simp [userSlash]
  | cons c cs ih =>
    have hc : c ≠ '/' := fun he => hu (he ▸ List.mem_cons_self _ _)
    rw [List.cons_append, userSlash, if_neg hc]
    exact ih (fun hm => hu (List.mem_cons_of_mem _ hm))

/-- The Pexels regex cannot match at a position whose remainder is
dot-free (its literal contains a dot). -/
theorem pexelsAt_none_of_no_dot {l : List Char} (h : '.' ∉ l) : pexelsAt l = none := by
  unfold pexelsAt
  cases hd : dropLit pexelsLit l with
  | none => rfl
  | some r =>
    exfalso
    apply h
    rw [dropLit_sound hd]
    exact List.mem_append_left _ (by decide)

/-- The Pexels regex finds no match in a dot-free input. -/
theorem pexelsFind_none_of_no_dot {l : List Char} (h : '.' ∉ l) : pexelsFind l = none := by
  induction l with
  | nil => rfl
  | cons c cs ih =>
    rw [pexelsFind, pexelsAt_none_of_no_dot h]
    exact ih (fun hm => h (List.mem_cons_of_mem _ hm))

/-- A match of the Pexels regex at the current position is the leftmost
match. -/
theorem pexelsFind_of_at {l d : List Char} (h : pexelsAt l = some d) :
    pexelsFind l = some d := by
  cases l with
  | nil => simp [pexelsAt, pexelsLit, dropLit] at h
  | cons c cs => rw [pexelsFind, h]

/-- The Unsplash regex cannot match at a position whose remainder is
dot-free. -/
theorem unsplashAt_none_of_no_dot {l : List Char} (h : '.' ∉ l) : unsplashAt l = none := by
  unfold unsplashAt
  cases hd : dropLit unsplashLit l with
  | none => rfl
  | some r =>
    exfalso
    apply h
    rw [dropLit_sound hd]
    exact List.mem_append_left _ (by decide)

/-- The Unsplash regex finds no match in a dot-free input. -/
theorem unsplashFind_none_of_no_dot {l : List Char} (h : '.' ∉ l) :
    unsplashFind l = none := by
  induction l with
  | nil => rfl
  | cons c cs ih =>
    rw [unsplashFind, unsplashAt_none_of_no_dot h]
    exact ih (fun hm => h (List.mem_cons_of_mem _ hm))

/-- A match of the Unsplash regex at the current position is the
leftmost match. -/
theorem unsplashFind_of_at {l d : List Char} (h : unsplashAt l = some d) :
    unsplashFind l = some d := by
  cases l with
  | nil => simp [unsplashAt, unsplashLit, dropLit] at h
  | cons c cs => rw [unsplashFind, h]

/-- A match of the Pixabay regex at the current position is the
leftmost match. -/
theorem pixabayFind_of_at {l d : List Char} (h : pixabayAt l = some d) :
    pixabayFind l = some d := by
  cases l with
  | nil => simp [pixabayAt, pixabayLit, dropLit] at h
  | cons c cs => rw [pixabayFind, h]

/-- Body characters from explicit character disequalities. -/
theorem bodyChar_of_ne {c : Char} (h1 : c ≠ ' ') (h2 : c ≠ '\t') (h3 : c ≠ '\n')
    (h4 : c ≠ '\r') (h5 : c ≠ '\x0b') (h6 : c ≠ '\x0c') (h7 : c ≠ '?') (h8 : c ≠ '#') :
    bodyChar c = true := by
  simp [bodyChar, isJsWhitespaceChar, h1, h2, h3, h4, h5, h6, h7, h8]

/-- Digits are body characters. -/
theorem digit_bodyChar {c : Char} (h : isAsciiDigit c = true) : bodyChar c = true :=
  bodyChar_of_ne (ne_of_class h (by decide)) (ne_of_class h (by decide))
    (ne_of_class h (by decide)) (ne_of_class h (by decide)) (ne_of_class h (by decide))
    (ne_of_class h (by decide)) (ne_of_class h (by decide)) (ne_of_class h (by decide))

/-- Alphanumerics are body characters. -/
theorem alphanum_bodyChar {c : Char} (h : alphanumChar c = true) : bodyChar c = true :=
  bodyChar_of_ne (ne_of_class h (by decide)) (ne_of_class h (by decide))
    (ne_of_class h (by decide)) (ne_of_class h (by decide)) (ne_of_class h (by decide))
    (ne_of_class h (by decide)) (ne_of_class h (by decide)) (ne_of_class h (by decide))

/-- Name characters are body characters. -/
theorem urlNameChar_bodyChar {c : Char} (h : urlNameChar c = true) : bodyChar c = true := by
  simp only [urlNameChar, Bool.and_eq_true] at h
  exact h.1

/-- Dot-free name characters are name characters. -/
theorem urlNameCharNoDot_urlNameChar {c : Char} (h : urlNameCharNoDot c = true) :
    urlNameChar c = true := by
  simp only [urlNameCharNoDot, Bool.and_eq_true] at h
  exact h.1

/-- Alphanumerics lie in the Unsplash slug class `[a-zA-Z0-9_-]`. -/
theorem alphanum_slugChar {c : Char} (h : alphanumChar c = true) : isSlugChar c = true := by
  simp only [alphanumChar, Bool.or_eq_true] at h
  simp only [isSlugChar, Bool.or_eq_true]
  exact Or.inl (Or.inl h)

/-- The `(\d+)\/?$` tail accepts digits plus an optional slash. -/
theorem digitsEnd_hit {digits t : List Char} (hd : digits ≠ [])
    (hda : digits.all isAsciiDigit = true) (ht : t = [] ∨ t = ['/']) :
    digitsEnd (digits ++ t) = some digits := by
  unfold digitsEnd
  exact classEnd_hit hd hda (by decide) ht

/-- The `([a-zA-Z0-9_-]+)\/?$` tail accepts slug characters plus an
optional slash. -/
theorem slugEnd_hit {slug t : List Char} (hs : slug ≠ [])
    (hsa : slug.all isSlugChar = true) (ht : t = [] ∨ t = ['/']) :
    slugEnd (slug ++ t) = some slug := by
  unfold slugEnd
  exact classEnd_hit hs hsa (by decide) ht

/-- The Pexels regex matches `pexels.com/photo/<name>-<digits>[/]` at
the current position and captures the digits. -/
theorem pexelsAt_hit {name digits t : List Char}
    (hn : name ≠ []) (hna : name.all urlNameChar = true)
    (hd : digits ≠ []) (hda : digits.all isAsciiDigit = true)
    (ht : t = [] ∨ t = ['/']) :
    pexelsAt (pexelsLit ++ (name ++ '-' :: (digits ++ t))) = some digits := by
  unfold pexelsAt
  rw [dropLit_self]
  exact dashPlus_hit digitsEnd hn
    (not_mem_of_all hna (by decide))
    (not_mem_append2 (not_mem_of_all hda (by decide))
      (by rcases ht with h | h <;> subst h <;> decide))
    (digitsEnd_hit hd hda ht)

/-- The Unsplash regex at the current position takes its `photos/`
alternative. -/
theorem unsplashAt_photos {mid d : List Char} (h : unsplashPhotosTail mid = some d) :
    unsplashAt (unsplashLit ++ (photosLit ++ mid)) = some d := by
  unfold unsplashAt
  rw [dropLit_self]
  simp only []
  rw [dropLit_self]
  simp only []
  exact h

/-- The Unsplash regex at the current position takes its `@user/`
alternative. -/
theorem unsplashAt_user {X d : List Char} (h : unsplashUserTail X = some d) :
    unsplashAt (unsplashLit ++ ('@' :: X)) = some d := by
  unfold unsplashAt
  rw [dropLit_self]
  simp only []
  rw [show dropLit photosLit ('@' :: X) = none from rfl]
  simp only []
  exact h

/-- The Pixabay regex matches with or without the optional language
segment. -/
theorem pixabayAt_hit {lang mid d : List Char}
    (hlang : lang = []
      ∨ ∃ a b, lang = [a, b, '/'] ∧ isLowerAlpha a = true ∧ isLowerAlpha b = true)
    (h : dashPlus digitsEnd mid = some d) :
    pixabayAt (pixabayLit ++ (lang ++ (photosLit ++ mid))) = some d := by
  unfold pixabayAt
  rw [dropLit_self]
  simp only []
  rcases hlang with he | ⟨a, b, he, ha, hb⟩ <;> subst he
  · rw [List.nil_append]
    rw [show pixabayLangTail (photosLit ++ mid) = none from rfl]
    simp only []
    rw [dropLit_self]
    simp only []
    exact h
  · rw [show ([a, b, '/'] ++ (photosLit ++ mid)) = a :: b :: '/' :: (photosLit ++ mid) from rfl]
    rw [pixabayLangTail]
    rw [ha, hb]
    simp only [Bool.and_self, if_true]
    rw [dropLit_self]
    simp only []
    rw [h]

/-- The `photos/` tail of the Unsplash regex on `<name>-<slug>[/]`: the
greedy optional `[^\/]+-` group takes the name, the capture is the
slug. -/
theorem unsplashPhotosTail_with_name {name slug t : List Char}
    (hn : name ≠ []) (hna : name.all urlNameCharNoDot = true)
    (hs : slug ≠ []) (hsa : slug.all alphanumChar = true)
    (ht : t = [] ∨ t = ['/']) :
    unsplashPhotosTail (name ++ '-' :: (slug ++ t)) = some slug := by
  unfold unsplashPhotosTail
  rw [dashPlus_hit slugEnd hn
    (not_mem_of_all (all_weaken (fun c hc => urlNameCharNoDot_urlNameChar hc) hna) (by decide))
    (not_mem_append2 (not_mem_of_all hsa (by decide))
      (by rcases ht with h | h <;> subst h <;> decide))
    (slugEnd_hit hs (all_weaken (fun c hc => alphanum_slugChar hc) hsa) ht)]

/-- The `photos/` tail of the Unsplash regex on a plain `<slug>[/]`:
the optional group cannot engage (no dash), the capture is the whole
slug. -/
theorem unsplashPhotosTail_plain {slug t : List Char}
    (hs : slug ≠ []) (hsa : slug.all alphanumChar = true)
    (ht : t = [] ∨ t = ['/']) :
    unsplashPhotosTail (slug ++ t) = some slug := by
  unfold unsplashPhotosTail
  rw [dashPlus_none slugEnd
    (not_mem_append2 (not_mem_of_all hsa (by decide))
      (by rcases ht with h | h <;> subst h <;> decide))]
  simp only []
  exact slugEnd_hit hs (all_weaken (fun c hc => alphanum_slugChar hc) hsa) ht

/-- The `@user/` tail of the Unsplash regex on `<user>/<slug>[/]`. -/
theorem unsplashUserTail_hit {user slug t : List Char}
    (hu : user ≠ []) (hua : user.all urlNameCharNoDot = true)
    (hs : slug ≠ []) (hsa : slug.all alphanumChar = true)
    (ht : t = [] ∨ t = ['/']) :
    unsplashUserTail (user ++ '/' :: (slug ++ t)) = some slug := by
  have huslash : '/' ∉ user :=
    not_mem_of_all (all_weaken (fun c hc => urlNameCharNoDot_urlNameChar hc) hua) (by decide)
  cases user with
  | nil => exact absurd rfl hu
  | cons c cs =>
    have hc : c ≠ '/' := fun he => huslash (he ▸ List.mem_cons_self _ _)
    rw [List.cons_append, unsplashUserTail, if_neg hc]
    rw [userSlash_hit (fun hm => huslash (List.mem_cons_of_mem _ hm))]
    exact slugEnd_hit hs (all_weaken (fun c hc => alphanum_slugChar hc) hsa) ht

/-- C2: for every input string shaped like one of the three fixed
provider photo-URL patterns — `pexels.com/photo/<name>-<digits>`,
`unsplash.com/photos/[<name>-]<slug>` or `unsplash.com/@<user>/<slug>`,
and `pixabay.com/[ll/]photos/<name>-<digits>` — with or without a
trailing slash and a trailing query string or fragment,
`detectPhotoURL` strips the query string and fragment, tries the three
patterns in order, and returns the provider together with the
extracted identifier (the numeric id for Pexels and Pixabay, the
alphanumeric slug for Unsplash); and for every string on which none of
the three patterns matches, it returns `none`. -/
theorem c2_url_detector :
    (∀ name digits t q : List Char,
      name ≠ [] → name.all urlNameChar = true →
      digits ≠ [] → digits.all isAsciiDigit = true →
      (t = [] ∨ t = ['/']) → suffixOk q →
      detectPhotoURL (String.mk (("https://www.".toList ++ pexelsLit
          ++ (name ++ '-' :: (digits ++ t))) ++ q))
        = some ("pexels", String.mk digits))
    ∧ (∀ name slug t q : List Char,
      name ≠ [] → name.all urlNameCharNoDot = true →
      slug ≠ [] → slug.all alphanumChar = true →
      (t = [] ∨ t = ['/']) → suffixOk q →
      detectPhotoURL (String.mk (("https://".toList ++ unsplashLit ++ photosLit
          ++ (name ++ '-' :: (slug ++ t))) ++ q))
        = some ("unsplash", String.mk slug))
    ∧ (∀ slug t q : List Char,
      slug ≠ [] → slug.all alphanumChar = true →
      (t = [] ∨ t = ['/']) → suffixOk q →
      detectPhotoURL (String.mk (("https://".toList ++ unsplashLit ++ photosLit
          ++ (slug ++ t)) ++ q))
        = some ("unsplash", String.mk slug))
    ∧ (∀ user slug t q : List Char,
      user ≠ [] → user.all urlNameCharNoDot = true →
      slug ≠ [] → slug.all alphanumChar = true →
      (t = [] ∨ t = ['/']) → suffixOk q →
      detectPhotoURL (String.mk (("https://".toList ++ unsplashLit
          ++ ('@' :: (user ++ '/' :: (slug ++ t)))) ++ q))
        = some ("unsplash", String.mk slug))
    ∧ (∀ lang name digits t q : List Char,
      (lang = []
        ∨ ∃ a b, lang = [a, b, '/'] ∧ isLowerAlpha a = true ∧ isLowerAlpha b = true) →
      name ≠ [] → name.all urlNameCharNoDot = true →
      digits ≠ [] → digits.all isAsciiDigit = true →
      (t = [] ∨ t = ['/']) → suffixOk q →
      detectPhotoURL (String.mk (("https://".toList ++ pixabayLit ++ lang ++ photosLit
          ++ (name ++ '-' :: (digits ++ t))) ++ q))
        = some ("pixabay", String.mk digits))
    ∧ (∀ s : String, pexelsFind (cleanInput s) = none → unsplashFind (cleanInput s) = none →
      pixabayFind (cleanInput s) = none → detectPhotoURL s = none) := by
  refine ⟨?_, ?_, ?_, ?_, ?_, ?_⟩
  · intro name digits t q hn hna hd hda ht hq
    have htall : (t.all bodyChar) = true := by
      rcases ht with h | h <;> subst h <;> decide
    have hb : (("https://www.".toList ++ pexelsLit ++ (name ++ '-' :: (digits ++ t))).all
        bodyChar) = true := by
      rw [List.all_append, List.all_append, List.all_append, List.all_cons, List.all_append]
      rw [all_weaken (fun c hc => urlNameChar_bodyChar hc) hna,
        all_weaken (fun c hc => digit_bodyChar hc) hda, htall]
      decide
    have hclean := cleanInput_of_body hb hq
    have hfind : pexelsFind ("https://www.".toList ++ pexelsLit
        ++ (name ++ '-' :: (digits ++ t))) = some digits := by
      rw [List.append_assoc]
      rw [show ∀ l, pexelsFind ("https://www.".toList ++ l) = pexelsFind l from fun l => rfl]
      exact pexelsFind_of_at (pexelsAt_hit hn hna hd hda ht)
    rw [detectPhotoURL]
    simp only [hclean, hfind]
  · intro name slug t q hn hna hs hsa ht hq
    have htall : (t.all bodyChar) = true := by
      rcases ht with h | h <;> subst h <;> decide
    have htnodot : '.' ∉ t := by
      rcases ht with h | h <;> subst h <;> decide
    have hb : (("https://".toList ++ unsplashLit ++ photosLit
        ++ (name ++ '-' :: (slug ++ t))).all bodyChar) = true := by
      rw [List.all_append, List.all_append, List.all_append, List.all_append, List.all_cons,
        List.all_append]
      rw [all_weaken (fun c hc => urlNameChar_bodyChar (urlNameCharNoDot_urlNameChar hc)) hna,
        all_weaken (fun c hc => alphanum_bodyChar hc) hsa, htall]
      decide
    have hclean := cleanInput_of_body hb hq
    have hmidnodot : '.' ∉ (name ++ '-' :: (slug ++ t)) :=
      not_mem_append2 (not_mem_of_all hna (by decide))
        (not_mem_cons2 (by decide)
          (not_mem_append2 (not_mem_of_all hsa (by decide)) htnodot))
    have hpex : pexelsFind ("https://".toList ++ unsplashLit ++ photosLit
        ++ (name ++ '-' :: (slug ++ t))) = none := by
      rw [show ∀ l, pexelsFind (("https://".toList ++ unsplashLit ++ photosLit) ++ l)
          = pexelsFind l from fun l => rfl]
      exact pexelsFind_none_of_no_dot hmidnodot
    have hfind : unsplashFind ("https://".toList ++ unsplashLit ++ photosLit
        ++ (name ++ '-' :: (slug ++ t))) = some slug := by
      rw [List.append_assoc, List.append_assoc]
      rw [show ∀ l, unsplashFind ("https://".toList ++ l) = unsplashFind l from fun l => rfl]
      exact unsplashFind_of_at
        (unsplashAt_photos (unsplashPhotosTail_with_name hn hna hs hsa ht))
    rw [detectPhotoURL]
    simp only [hclean, hpex, hfind]
  · intro slug t q hs hsa ht hq
    have htall : (t.all bodyChar) = true := by
      rcases ht with h | h <;> subst h <;> decide
    have htnodot : '.' ∉ t := by
      rcases ht with h | h <;> subst h <;> decide
    have hb : (("https://".toList ++ unsplashLit ++ photosLit ++ (slug ++ t)).all
        bodyChar) = true := by
      rw [List.all_append, List.all_append, List.all_append, List.all_append]
      rw [all_weaken (fun c hc => alphanum_bodyChar hc) hsa, htall]
      decide
    have hclean := cleanInput_of_body hb hq
    have hmidnodot : '.' ∉ (slug ++ t) :=
      not_mem_append2 (not_mem_of_all hsa (by decide)) htnodot
    have hpex : pexelsFind ("https://".toList ++ unsplashLit ++ photosLit
        ++ (slug ++ t)) = none := by
      rw [show ∀ l, pexelsFind (("https://".toList ++ unsplashLit ++ photosLit) ++ l)
          = pexelsFind l from fun l => rfl]
      exact pexelsFind_none_of_no_dot hmidnodot
    have hfind : unsplashFind ("https://".toList ++ unsplashLit ++ photosLit
        ++ (slug ++ t)) = some slug := by
      rw [List.append_assoc, List.append_assoc]
      rw [show ∀ l, unsplashFind ("https://".toList ++ l) = unsplashFind l from fun l => rfl]
      exact unsplashFind_of_at (unsplashAt_photos (unsplashPhotosTail_plain hs hsa ht))
    rw [detectPhotoURL]
    simp only [hclean, hpex, hfind]
  · intro user slug t q hu hua hs hsa ht hq
    have htall : (t.all bodyChar) = true := by
      rcases ht with h | h <;> subst h <;> decide
    have htnodot : '.' ∉ t := by
      rcases ht with h | h <;> subst h <;> decide
    have hb : (("https://".toList ++ unsplashLit
        ++ ('@' :: (user ++ '/' :: (slug ++ t)))).all bodyChar) = true := by
      rw [List.all_append, List.all_append, List.all_cons, List.all_append, List.all_cons,
        List.all_append]
      rw [all_weaken (fun c hc => urlNameChar_bodyChar (urlNameCharNoDot_urlNameChar hc)) hua,
        all_weaken (fun c hc => alphanum_bodyChar hc) hsa, htall]
      decide
    have hclean := cleanInput_of_body hb hq
    have hXnodot : '.' ∉ (user ++ '/' :: (slug ++ t)) :=
      not_mem_append2 (not_mem_of_all hua (by decide))
        (not_mem_cons2 (by decide)
          (not_mem_append2 (not_mem_of_all hsa (by decide)) htnodot))
    have hpex : pexelsFind ("https://".toList ++ unsplashLit
        ++ ('@' :: (user ++ '/' :: (slug ++ t)))) = none := by
      rw [show ('@' :: (user ++ '/' :: (slug ++ t)))
          = ['@'] ++ (user ++ '/' :: (slug ++ t)) from rfl]
      rw [← List.append_assoc]
      rw [show ∀ l, pexelsFind (("https://".toList ++ unsplashLit ++ ['@']) ++ l)
          = pexelsFind l from fun l => rfl]
      exact pexelsFind_none_of_no_dot hXnodot
    have hfind : unsplashFind ("https://".toList ++ unsplashLit
        ++ ('@' :: (user ++ '/' :: (slug ++ t)))) = some slug := by
      rw [List.append_assoc]
      rw [show ∀ l, unsplashFind ("https://".toList ++ l) = unsplashFind l from fun l => rfl]
      exact unsplashFind_of_at (unsplashAt_user (unsplashUserTail_hit hu hua hs hsa ht))
    rw [detectPhotoURL]
    simp only [hclean, hpex, hfind]
  · intro lang name digits t q hlang hn hna hd hda ht hq
    have htall : (t.all bodyChar) = true := by
      rcases ht with h | h <;> subst h <;> decide
    have htnodot : '.' ∉ t := by
      rcases ht with h | h <;> subst h <;> decide
    have hlangall : (lang.all bodyChar) = true := by
      rcases hlang with he | ⟨a, b, he, ha, hb2⟩ <;> subst he
      · rfl
      · rw [show ([a, b, '/'].all bodyChar)
            = (bodyChar a && (bodyChar b && (bodyChar '/' && true))) from rfl]
        rw [bodyChar_of_ne (ne_of_class ha (by decide)) (ne_of_class ha (by decide))
          (ne_of_class ha (by decide)) (ne_of_class ha (by decide))
          (ne_of_class ha (by decide)) (ne_of_class ha (by decide))
          (ne_of_class ha (by decide)) (ne_of_class ha (by decide))]
        rw [bodyChar_of_ne (ne_of_class hb2 (by decide)) (ne_of_class hb2 (by decide))
          (ne_of_class hb2 (by decide)) (ne_of_class hb2 (by decide))
          (ne_of_class hb2 (by decide)) (ne_of_class hb2 (by decide))
          (ne_of_class hb2 (by decide)) (ne_of_class hb2 (by decide))]
        decide
    have hlangnodot : '.' ∉ lang := by
      rcases hlang with he | ⟨a, b, he, ha, hb2⟩ <;> subst he
      · simp
      · exact not_mem_cons2 (Ne.symm (ne_of_class ha (by decide)))
          (not_mem_cons2 (Ne.symm (ne_of_class hb2 (by decide)))
            (not_mem_cons2 (by decide) (by simp)))
    have hb : (("https://".toList ++ pixabayLit ++ lang ++ photosLit
        ++ (name ++ '-' :: (digits ++ t))).all bodyChar) = true := by
      simp only [List.all_append, List.all_cons]
      rw [all_weaken (fun c hc => urlNameChar_bodyChar (urlNameCharNoDot_urlNameChar hc)) hna,
        all_weaken (fun c hc => digit_bodyChar hc) hda, htall, hlangall]
      decide
    have hclean := cleanInput_of_body hb hq
    have hmidnodot : '.' ∉ (name ++ '-' :: (digits ++ t)) :=
      not_mem_append2 (not_mem_of_all hna (by decide))
        (not_mem_cons2 (by decide)
          (not_mem_append2 (not_mem_of_all hda (by decide)) htnodot))
    have hrestnodot : '.' ∉ (lang ++ (photosLit ++ (name ++ '-' :: (digits ++ t)))) :=
      not_mem_append2 hlangnodot
        (not_mem_append2 (by decide) hmidnodot)
    have hpex : pexelsFind ("https://".toList ++ pixabayLit ++ lang ++ photosLit
        ++ (name ++ '-' :: (digits ++ t))) = none := by
      rw [List.append_assoc, List.append_assoc]
      rw [show ∀ l, pexelsFind (("https://".toList ++ pixabayLit) ++ l)
          = pexelsFind l from fun l => rfl]
      exact pexelsFind_none_of_no_dot hrestnodot
    have huns : unsplashFind ("https://".toList ++ pixabayLit ++ lang ++ photosLit
        ++ (name ++ '-' :: (digits ++ t))) = none := by
      rw [List.append_assoc, List.append_assoc]
      rw [show ∀ l, unsplashFind (("https://".toList ++ pixabayLit) ++ l)
          = unsplashFind l from fun l => rfl]
      exact unsplashFind_none_of_no_dot hrestnodot
    have hfind : pixabayFind ("https://".toList ++ pixabayLit ++ lang ++ photosLit
        ++ (name ++ '-' :: (digits ++ t))) = some digits := by
      rw [List.append_assoc, List.append_assoc, List.append_assoc]
      rw [show ∀ l, pixabayFind ("https://".toList ++ l) = pixabayFind l from fun l => rfl]
      exact pixabayFind_of_at (pixabayAt_hit hlang (dashPlus_hit digitsEnd hn
        (not_mem_of_all (all_weaken (fun c hc => urlNameCharNoDot_urlNameChar hc) hna)
          (by decide))
        (not_mem_append2 (not_mem_of_all hda (by decide))
          (by rcases ht with h | h <;> subst h <;> decide))
        (digitsEnd_hit hd hda ht)))
    rw [detectPhotoURL]
    simp only [hclean, hpex, huns, hfind]
  · intro s h1 h2 h3
    rw [detectPhotoURL]
    simp only [h1, h2, h3]

/-- Closed instance of `c2_url_detector` at concrete inputs of all
three providers, plus a non-matching input. -/
theorem c2_url_detector_witness :
    detectPhotoURL "https://www.pexels.com/photo/beautiful-sunset-123456/?utm_source=test"
      = some ("pexels", "123456")
    ∧ detectPhotoURL "https://unsplash.com/@photographer/def456ghi"
      = some ("unsplash", "def456ghi")
    ∧ detectPhotoURL "https://pixabay.com/en/photos/lake-reflection-789012/"
      = some ("pixabay", "789012")
    ∧ detectPhotoURL "mountains sunset" = none := by
  refine ⟨?_, ?_, ?_, ?_⟩
  · exact c2_url_detector.1 "beautiful-sunset".toList "123456".toList ['/']
      "?utm_source=test".toList (by decide) (by decide) (by decide) (by decide)
      (Or.inr rfl) (Or.inr ⟨"utm_source=test".toList, Or.inl rfl, by decide⟩)
  · exact c2_url_detector.2.2.2.1 "photographer".toList "def456ghi".toList [] []
      (by decide) (by decide) (by decide) (by decide) (Or.inl rfl) (Or.inl rfl)
  · exact c2_url_detector.2.2.2.2.1 ['e', 'n', '/'] "lake-reflection".toList
      "789012".toList ['/'] [] (Or.inr ⟨'e', 'n', rfl, by decide, by decide⟩)
      (by decide) (by decide) (by decide) (by decide) (Or.inr rfl) (Or.inl rfl)
  · exact c2_url_detector.2.2.2.2.2 "mountains sunset" (by decide) (by decide) (by decide)

end PhotoSearch
